import Mathlib

/-!
Verification of the UpFlux-IoT-Services AI micro-service
(src/ai_script/ai_service.py) against its natural-language specification.

The two HTTP handlers are shallowly embedded as pure Lean functions:

* timestamps are modelled as integers (seconds); the ISO-8601
  formatting and parsing round-trips exactly on aware datetimes, so
  string rendering is dropped and all arithmetic is on integer seconds;
* the wall clock (datetime.now) is an explicit parameter;
* Python floats are modelled as rationals;
* the fallible handler paths (Flask 400 responses, uncaught Python
  exceptions turning into 500 responses) are modelled with an explicit
  result type.

External sklearn/numpy calls are modelled by their documented contracts:
the data-dependent fitted parameters (per-column scaler statistics, PCA
component matrix, Gaussian noise draws) are abstract parameters, while
every shape check, arithmetic step and control-flow decision that the
service itself performs is embedded concretely.
-/

set_option linter.unusedVariables false

namespace UpFlux

/-- Fixed configuration constants from ai_service.py (seconds). -/
def UPDATE_PAYLOAD_SEC : Int := 25

/-- Setup lead time constant from ai_service.py. -/
def CLUSTER_SETUP_SEC : Int := 5

/-- Minimum inter-cluster gap constant from ai_service.py. -/
def MIN_CLUSTER_GAP_SEC : Int := 30

/-- Target total number of plotted points from ai_service.py. -/
def TARGET_TOTAL_POINTS : Int := 100

/-- Kinds of uncaught Python exceptions the handlers can raise
(they surface as HTTP 500 responses). -/
inductive PyError where
  | nameError
  | valueError
  | typeError
deriving DecidableEq

/-- Result of a handler: a normal JSON response, a client-facing 4xx
error, or an uncaught exception (5xx). -/
inductive Resp (α : Type) where
  | ok (val : α)
  | clientError (msg : String)
  | serverError (err : PyError)
deriving DecidableEq

/-- Whether a handler result is a normal response. -/
def Resp.isOk {α : Type} : Resp α → Bool
  | .ok _ => true
  | _ => false

/-! ## Scheduling handler (/ai/scheduling) -/

/-- One element of the clusters array of the scheduling request body. -/
structure ClusterIn where
  clusterId : String
  deviceUuids : List String
deriving DecidableEq

/-- One element of aggregatorData: nextIdleTime is none when the field
is null or an empty string (both are falsy in the Python check). -/
structure AggEntry where
  deviceUuid : String
  nextIdleTime : Option Int
  idleDurationSecs : Int
deriving DecidableEq

/-- A feasible job built in the feasibility stage (windowStart and
windowEnd are the intersection of the member idle windows). -/
structure Job where
  clusterId : String
  deviceUuids : List String
  windowStart : Int
  windowEnd : Int
deriving DecidableEq

/-- A scheduled job as returned to the client. -/
structure SJob where
  clusterId : String
  deviceUuids : List String
  updateTimeUtc : Int
deriving DecidableEq

/-- The scheduling request body; a field is none when it is absent from
the JSON payload (the handler reads both with dict.get defaults). -/
structure SchedReq where
  clusters : Option (List ClusterIn)
  aggregatorData : Option (List AggEntry)
deriving DecidableEq

/-- Python dict comprehension over agg_list keyed by deviceUuid: a later
entry overwrites an earlier one, so lookup finds the last occurrence. -/
def idleLookup (agg : List AggEntry) (d : String) : Option AggEntry :=
  agg.reverse.find? (fun a => a.deviceUuid == d)

/-- Maximum of an integer list, mirroring Python max on a nonempty list
(the default is never used on the paths the handler reaches). -/
def listMax (l : List Int) : Int := l.foldl max (l.headD 0)

/-- Minimum of an integer list, mirroring Python min on a nonempty list. -/
def listMin (l : List Int) : Int := l.foldl min (l.headD 0)

/-- The per-device window collection loop of the feasibility stage:
returns none as soon as one member device lacks a usable idle entry or
its window is shorter than payload + setup (the for-loop breaks), and
otherwise the list of member windows in member order (the for-else). -/
def memberWindows (m : List AggEntry) : List String → Option (List (Int × Int))
  | [] => some []
  | d :: rest =>
    match idleLookup m d with
    | none => none
    | some info =>
      match info.nextIdleTime with
      | none => none
      | some start =>
        if info.idleDurationSecs < UPDATE_PAYLOAD_SEC + CLUSTER_SETUP_SEC then none
        else (memberWindows m rest).map (fun ws => (start, start + info.idleDurationSecs) :: ws)

/-- Feasibility decision for one cluster: clusters with an empty member
list are skipped by the continue; otherwise the member windows are
intersected and the cluster is kept when the intersection is at least
the payload duration long. -/
def clusterJob (m : List AggEntry) (c : ClusterIn) : Option Job :=
  if c.deviceUuids = [] then none
  else
    match memberWindows m c.deviceUuids with
    | none => none
    | some ws =>
      let latestStart := listMax (ws.map Prod.fst)
      let earliestEnd := listMin (ws.map Prod.snd)
      if latestStart + UPDATE_PAYLOAD_SEC ≤ earliestEnd then
        some ⟨c.clusterId, c.deviceUuids, latestStart, earliestEnd⟩
      else none

/-- The feasibility stage over all input clusters, in input order. -/
def buildJobs (m : List AggEntry) : List ClusterIn → List Job
  | [] => []
  | c :: rest =>
    match clusterJob m c with
    | none => buildJobs m rest
    | some j => j :: buildJobs m rest

/-- Sort key relation of jobs.sort: ascending windowStart. -/
def jobLE (a b : Job) : Prop := a.windowStart ≤ b.windowStart

instance : DecidableRel jobLE := fun a b => Int.decLe a.windowStart b.windowStart

instance : IsTotal Job jobLE := ⟨fun a b => Int.le_total a.windowStart b.windowStart⟩

instance : IsTrans Job jobLE := ⟨fun _ _ _ h h2 => Int.le_trans h h2⟩

/-- The in-place jobs.sort by windowStart. -/
def sortJobs (js : List Job) : List Job := List.insertionSort jobLE js

/-- The greedy placement sweep: cur is the running cursor (current in
the source), initialised to now; each accepted job advances it by
max(payload, gap) past the chosen start. -/
def place (now : Int) : List Job → Int → List SJob
  | [], _ => []
  | j :: rest, cur =>
    let start := max j.windowStart (max cur (now + CLUSTER_SETUP_SEC))
    if start + UPDATE_PAYLOAD_SEC ≤ j.windowEnd then
      ⟨j.clusterId, j.deviceUuids, start⟩ ::
        place now rest (start + max UPDATE_PAYLOAD_SEC MIN_CLUSTER_GAP_SEC)
    else place now rest cur

/-- The repair sweep body for indices 1..len(scheduled)-1: prev is
scheduled[i-1] after its own repair, and the paired job list walks the
SORTED jobs list positionally from index 1 - exactly as the source
indexes jobs[i] - even though scheduled may be a proper subsequence of
jobs, so the paired job need not be the one the schedule entry came
from. The middle case is unreachable because the schedule is never
longer than the jobs list. -/
def repairGo : SJob → List SJob → List Job → List SJob
  | _, [], _ => []
  | _, s :: tail, [] => s :: tail
  | prev, s :: tail, j :: jtail =>
    let ideal := max (prev.updateTimeUtc + UPDATE_PAYLOAD_SEC) j.windowStart
    if ideal + UPDATE_PAYLOAD_SEC ≤ j.windowEnd then
      let s2 : SJob := { s with updateTimeUtc := ideal }
      s2 :: repairGo s2 tail jtail
    else s :: repairGo s tail jtail

/-- The whole repair stage: scheduled[0] is never touched. -/
def repairAll (js : List Job) (sched : List SJob) : List SJob :=
  match sched with
  | [] => []
  | s0 :: rest => s0 :: repairGo s0 rest (js.drop 1)

/-- Feasible jobs of a request, sorted by windowStart. -/
def feasibleSorted (req : SchedReq) : List Job :=
  sortJobs (buildJobs (req.aggregatorData.getD []) (req.clusters.getD []))

/-- The schedule after the greedy placement stage, before repair. -/
def schedulePre (req : SchedReq) (now : Int) : List SJob :=
  place now (feasibleSorted req) now

/-- The /ai/scheduling handler: feasibility, greedy placement, repair.
It performs no input validation at all; absent fields fall back to
empty lists and the handler always returns a normal response. -/
def scheduling (req : SchedReq) (now : Int) : Resp (List SJob) :=
  .ok (repairAll (feasibleSorted req) (schedulePre req now))

/-! ## Feasibility-stage drop conditions (C8) -/

/-- A member device that makes the window-collection loop break: it has
no usable idle entry (absent, or falsy nextIdleTime) or its individual
window is shorter than payload + setup. -/
def badDevice (m : List AggEntry) (d : String) : Bool :=
  match idleLookup m d with
  | none => true
  | some a =>
    a.nextIdleTime = none || a.idleDurationSecs < UPDATE_PAYLOAD_SEC + CLUSTER_SETUP_SEC

theorem memberWindows_length {m : List AggEntry} {devs : List String}
    {ws : List (Int × Int)} (h : memberWindows m devs = some ws) :
    ws.length = devs.length := by
  induction devs generalizing ws with
  | nil =>
    simp only [memberWindows, Option.some.injEq] at h
    subst h; rfl
  | cons d rest ih =>
    simp only [memberWindows] at h
    cases hl : idleLookup m d <;> simp only [hl] at h
    case none => exact Option.noConfusion h
    case some a =>
      cases ht : a.nextIdleTime <;> simp only [ht] at h
      case none => exact Option.noConfusion h
      case some s =>
        by_cases hdur : a.idleDurationSecs < UPDATE_PAYLOAD_SEC + CLUSTER_SETUP_SEC
        · simp only [if_pos hdur] at h
          exact Option.noConfusion h
        · simp only [if_neg hdur] at h
          rcases Option.map_eq_some'.mp h with ⟨ws2, hrest, hcons⟩
          subst hcons
          simp [ih hrest]

theorem memberWindows_eq_none_iff (m : List AggEntry) (devs : List String) :
    memberWindows m devs = none ↔ ∃ d ∈ devs, badDevice m d = true := by
  induction devs with
  | nil => simp [memberWindows]
  | cons d rest ih =>
    simp only [memberWindows]
    cases hl : idleLookup m d <;> simp only [hl]
    case none =>
      constructor
      · intro _; exact ⟨d, List.mem_cons_self d rest, by simp [badDevice, hl]⟩
      · intro _; trivial
    case some a =>
      cases ht : a.nextIdleTime <;> simp only [ht]
      case none =>
        constructor
        · intro _; exact ⟨d, List.mem_cons_self d rest, by simp [badDevice, hl, ht]⟩
        · intro _; trivial
      case some s =>
        by_cases hdur : a.idleDurationSecs < UPDATE_PAYLOAD_SEC + CLUSTER_SETUP_SEC
        · simp only [if_pos hdur]
          constructor
          · intro _; exact ⟨d, List.mem_cons_self d rest, by simp [badDevice, hl, hdur]⟩
          · intro _; trivial
        · simp only [if_neg hdur]
          rw [Option.map_eq_none', ih]
          constructor
          · rintro ⟨x, hx, hb⟩; exact ⟨x, List.mem_cons_of_mem d hx, hb⟩
          · rintro ⟨x, hx, hb⟩
            rcases List.mem_cons.mp hx with hxd | hxr
            · subst hxd
              exfalso
              simp only [badDevice, hl, ht, Bool.or_eq_true, decide_eq_true_eq,
                reduceCtorEq, false_or] at hb
              exact hdur hb
            · exact ⟨x, hxr, hb⟩

theorem buildJobs_eq_filterMap (m : List AggEntry) (cs : List ClusterIn) :
    buildJobs m cs = cs.filterMap (clusterJob m) := by
  induction cs with
  | nil => rfl
  | cons c rest ih =>
    simp only [buildJobs, List.filterMap_cons]
    cases clusterJob m c <;> simp [ih]

/-- C8 (amended): the feasibility stage treats each cluster
independently (it is a filterMap over the input clusters), and a
cluster is dropped exactly when its member list is EMPTY, or some
member has no usable idle-window entry or a window shorter than
payload + setup, or the intersection of the member windows is shorter
than the payload duration. The claim as frozen omits the
empty-member-list case. -/
theorem C8_amended_drop_iff (m : List AggEntry) (c : ClusterIn) :
    (∀ cs : List ClusterIn, buildJobs m cs = cs.filterMap (clusterJob m)) ∧
    (clusterJob m c = none ↔
      c.deviceUuids = [] ∨
      (∃ d ∈ c.deviceUuids, badDevice m d = true) ∨
      (∃ ws, memberWindows m c.deviceUuids = some ws ∧ ws ≠ [] ∧
        listMin (ws.map Prod.snd) < listMax (ws.map Prod.fst) + UPDATE_PAYLOAD_SEC)) := by
  refine ⟨buildJobs_eq_filterMap m, ?_⟩
  by_cases hdev : c.deviceUuids = []
  · simp [clusterJob, hdev]
  · simp only [clusterJob, if_neg hdev]
    cases hw : memberWindows m c.deviceUuids with
    | none =>
      simp only [hw, true_iff]
      exact Or.inr (Or.inl ((memberWindows_eq_none_iff m c.deviceUuids).mp hw))
    | some ws =>
      simp only [hw]
      have hws_ne : ws ≠ [] := by
        intro hnil
        have := memberWindows_length hw
        rw [hnil] at this
        exact hdev (List.eq_nil_of_length_eq_zero this.symm)
      have hnobad : ¬ ∃ d ∈ c.deviceUuids, badDevice m d = true := by
        intro hex
        have := (memberWindows_eq_none_iff m c.deviceUuids).mpr hex
        rw [hw] at this
        exact Option.noConfusion this
      by_cases hfit :
          listMax (ws.map Prod.fst) + UPDATE_PAYLOAD_SEC ≤ listMin (ws.map Prod.snd)
      · simp only [if_pos hfit]
        constructor
        · intro h; exact absurd h (by simp)
        · rintro (h | h | ⟨ws2, hws2, hne2, hshort⟩)
          · exact absurd h hdev
          · exact absurd h hnobad
          · injection hws2 with h2
            subst h2
            omega
      · simp only [if_neg hfit]
        simp only [true_iff]
        exact Or.inr (Or.inr ⟨ws, rfl, hws_ne, by omega⟩)

/-- C8 counterexample to the claim as frozen: a cluster with an empty
deviceUuids list (the clustering response contains exactly such
placeholder clusters) is dropped by the feasibility stage although none
of the three stated drop conditions holds for it. -/
theorem C8_cex_empty_cluster_dropped :
    clusterJob [] ⟨"X", []⟩ = none ∧
    ¬ (∃ d ∈ ([] : List String), badDevice [] d = true) ∧
    ¬ (∃ ws, memberWindows ([] : List AggEntry) [] = some ws ∧ ws ≠ [] ∧
        listMin (ws.map Prod.snd) < listMax (ws.map Prod.fst) + UPDATE_PAYLOAD_SEC) := by
  refine ⟨rfl, ?_, ?_⟩
  · rintro ⟨d, hd, _⟩
    exact (List.not_mem_nil d) hd
  · rintro ⟨ws, hws, hne, _⟩
    have : ws = [] := by
      have h0 : memberWindows ([] : List AggEntry) [] = some [] := rfl
      rw [h0, Option.some.injEq] at hws
      exact hws.symm
    exact hne this

/-! ## Missing clusters field (C4) -/

/-- C4 (amended): when the clusters field is absent from the request
payload the scheduling handler does NOT reject; request.get falls back
to an empty list, the pipeline runs on it, and the handler returns a
normal response with an empty schedule, whatever the aggregator data
and the current time are. -/
theorem C4_amended_missing_clusters_ok_empty
    (agg : Option (List AggEntry)) (now : Int) :
    scheduling ⟨none, agg⟩ now = .ok [] := rfl

/-- C4 counterexample to the claim as frozen: a concrete payload whose
clusters field is absent (but which carries aggregator data) yields a
normal empty-schedule response, not a client-facing error. -/
theorem C4_cex_missing_clusters_normal_response :
    scheduling ⟨none, some [⟨"a", some 5, 995⟩]⟩ 0 = .ok [] ∧
    (scheduling ⟨none, some [⟨"a", some 5, 995⟩]⟩ 0).isOk = true := ⟨rfl, rfl⟩

/-! ## Repair-stage window violation (C1) -/

/-- Request exhibiting the repair-stage misalignment: three feasible
clusters A (window 5..1000), B (10..59) and C (50..150); placement
drops B (its window closes before the cursor reaches it), so the
schedule is the subsequence A, C of the sorted jobs list, but the
repair loop pairs schedule position 1 (cluster C) with jobs[1]
(cluster B). -/
def c1Req : SchedReq :=
  ⟨some [⟨"A", ["a"]⟩, ⟨"B", ["b"]⟩, ⟨"C", ["c"]⟩],
   some [⟨"a", some 5, 995⟩, ⟨"b", some 10, 49⟩, ⟨"c", some 50, 100⟩]⟩

/-- C1 fails on the code: after placement and repair, cluster C is
returned with updateTimeUtc 30 although its feasibility-stage window is
50..150, so windowStart ≤ updateTimeUtc is violated. The repair sweep
checked the ideal start 30 against jobs[1] (dropped cluster B, window
10..59) instead of cluster C's own window, because it indexes the
sorted jobs list with the position in the (shorter) schedule list. -/
theorem C1_repair_moves_job_before_its_window :
    scheduling c1Req 0 = .ok [⟨"A", ["a"], 5⟩, ⟨"C", ["c"], 30⟩] ∧
    (⟨"C", ["c"], 50, 150⟩ : Job) ∈ feasibleSorted c1Req ∧
    ¬ ((50 : Int) ≤ 30) := by decide

/-! ## Inter-job gaps (C5) -/

/-- Request with two long overlapping windows: placement puts the
second job exactly max(payload, gap) = 30 s after the first START, so
the end-to-start gap before repair is only 5 s. -/
def c5Req : SchedReq :=
  ⟨some [⟨"A", ["a"]⟩, ⟨"B", ["b"]⟩],
   some [⟨"a", some 0, 1000⟩, ⟨"b", some 1, 1000⟩]⟩

/-- Default job used only as a getD fallback in index lemmas. -/
def defJob : Job := ⟨"", [], 0, 0⟩

/-- Default scheduled job used only as a getD fallback in index lemmas. -/
def defSJob : SJob := ⟨"", [], 0⟩

theorem place_length_le (now : Int) (jobs : List Job) (cur : Int) :
    (place now jobs cur).length ≤ jobs.length := by
  induction jobs generalizing cur with
  | nil => simp [place]
  | cons j rest ih =>
    simp only [place]
    by_cases h :
        max j.windowStart (max cur (now + CLUSTER_SETUP_SEC)) + UPDATE_PAYLOAD_SEC ≤ j.windowEnd
    · simp only [if_pos h, List.length_cons]
      exact Nat.succ_le_succ (ih _)
    · simp only [if_neg h, List.length_cons]
      exact Nat.le_succ_of_le (ih _)

theorem place_mem_ge (now : Int) (jobs : List Job) (cur : Int) :
    ∀ s ∈ place now jobs cur, cur ≤ s.updateTimeUtc := by
  induction jobs generalizing cur with
  | nil => intro s hs; simp [place] at hs
  | cons j rest ih =>
    intro s hs
    simp only [place] at hs
    have hcur : cur ≤ max j.windowStart (max cur (now + CLUSTER_SETUP_SEC)) :=
      le_trans (le_max_left cur _) (le_max_right _ _)
    by_cases h :
        max j.windowStart (max cur (now + CLUSTER_SETUP_SEC)) + UPDATE_PAYLOAD_SEC ≤ j.windowEnd
    · rw [if_pos h] at hs
      rcases List.mem_cons.mp hs with hs | hs
      · subst hs; exact hcur
      · have hrec := ih _ s hs
        have hgap : (0 : Int) ≤ max UPDATE_PAYLOAD_SEC MIN_CLUSTER_GAP_SEC := by decide
        linarith
    · rw [if_neg h] at hs
      exact ih cur s hs

theorem place_chain (now : Int) (jobs : List Job) (cur : Int) :
    List.Chain' (fun a b : SJob =>
      a.updateTimeUtc + max UPDATE_PAYLOAD_SEC MIN_CLUSTER_GAP_SEC ≤ b.updateTimeUtc)
      (place now jobs cur) := by
  induction jobs generalizing cur with
  | nil => simp [place]
  | cons j rest ih =>
    simp only [place]
    by_cases h :
        max j.windowStart (max cur (now + CLUSTER_SETUP_SEC)) + UPDATE_PAYLOAD_SEC ≤ j.windowEnd
    · rw [if_pos h, List.chain'_cons']
      refine ⟨?_, ih _⟩
      intro y hy
      exact place_mem_ge now rest _ y (List.mem_of_mem_head? hy)
    · rw [if_neg h]
      exact ih cur

theorem place_ws_le (now : Int) (jobs : List Job) (cur : Int)
    (hs : List.Sorted jobLE jobs) :
    ∀ i, i < (place now jobs cur).length →
      (jobs.getD i defJob).windowStart ≤
        ((place now jobs cur).getD i defSJob).updateTimeUtc := by
  induction jobs generalizing cur with
  | nil => intro i hi; simp [place] at hi
  | cons j rest ih =>
    intro i hi
    simp only [place] at hi ⊢
    by_cases h :
        max j.windowStart (max cur (now + CLUSTER_SETUP_SEC)) + UPDATE_PAYLOAD_SEC ≤ j.windowEnd
    · rw [if_pos h] at hi ⊢
      cases i with
      | zero =>
        simp only [List.getD_cons_zero]
        exact le_max_left _ _
      | succ i =>
        simp only [List.getD_cons_succ]
        refine ih _ hs.of_cons i ?_
        simpa using Nat.lt_of_succ_lt_succ (by simpa using hi)
    · rw [if_neg h] at hi ⊢
      have hlen : i < rest.length := lt_of_lt_of_le hi (place_length_le now rest cur)
      have step : ((j :: rest).getD i defJob).windowStart ≤
          (rest.getD i defJob).windowStart := by
        cases i with
        | zero =>
          simp only [List.getD_cons_zero]
          have hmem : rest.getD 0 defJob ∈ rest := by
            rw [List.getD_eq_get _ _ hlen]
            exact List.get_mem _ _ _
          exact (List.pairwise_cons.mp hs).1 _ hmem
        | succ i =>
          simp only [List.getD_cons_succ]
          have h1 : i < rest.length := Nat.lt_of_succ_lt hlen
          rw [List.getD_eq_get _ _ h1, List.getD_eq_get _ _ hlen]
          exact List.pairwise_iff_get.mp hs.of_cons ⟨i, h1⟩ ⟨i + 1, hlen⟩ (Nat.lt_succ_self i)
      exact le_trans step (ih cur hs.of_cons i hi)

theorem repairGo_spec (rest : List SJob) :
    ∀ (jrest : List Job) (prevNew prevOld : SJob),
      prevNew.updateTimeUtc ≤ prevOld.updateTimeUtc →
      List.Chain' (fun a b : SJob =>
        a.updateTimeUtc + max UPDATE_PAYLOAD_SEC MIN_CLUSTER_GAP_SEC ≤ b.updateTimeUtc)
        (prevOld :: rest) →
      rest.length ≤ jrest.length →
      (∀ i, i < rest.length →
        (jrest.getD i defJob).windowStart ≤ (rest.getD i defSJob).updateTimeUtc) →
      List.Forall₂ (fun a b : SJob => a.updateTimeUtc ≤ b.updateTimeUtc)
        (repairGo prevNew rest jrest) rest ∧
      List.Chain' (fun a b : SJob => a.updateTimeUtc + UPDATE_PAYLOAD_SEC ≤ b.updateTimeUtc)
        (prevNew :: repairGo prevNew rest jrest) := by
  induction rest with
  | nil =>
    intro jrest prevNew prevOld hle hchain hlen hf
    simp [repairGo]
  | cons s tail ih =>
    intro jrest prevNew prevOld hle hchain hlen hf
    cases jrest with
    | nil => simp at hlen
    | cons j jtail =>
      have hj : j.windowStart ≤ s.updateTimeUtc := by simpa using hf 0 (Nat.succ_pos _)
      have hchain1 :
          prevOld.updateTimeUtc + max UPDATE_PAYLOAD_SEC MIN_CLUSTER_GAP_SEC ≤
            s.updateTimeUtc := (List.chain'_cons.mp hchain).1
      have hchain2 := (List.chain'_cons.mp hchain).2
      have hlen2 : tail.length ≤ jtail.length := by simpa using hlen
      have hf2 : ∀ i, i < tail.length →
          (jtail.getD i defJob).windowStart ≤ (tail.getD i defSJob).updateTimeUtc := by
        intro i hi
        simpa using hf (i + 1) (Nat.succ_lt_succ hi)
      have hpay : UPDATE_PAYLOAD_SEC ≤ max UPDATE_PAYLOAD_SEC MIN_CLUSTER_GAP_SEC :=
        le_max_left _ _
      simp only [repairGo]
      by_cases hcond :
          max (prevNew.updateTimeUtc + UPDATE_PAYLOAD_SEC) j.windowStart + UPDATE_PAYLOAD_SEC ≤
            j.windowEnd
      · rw [if_pos hcond]
        have hs2le :
            max (prevNew.updateTimeUtc + UPDATE_PAYLOAD_SEC) j.windowStart ≤
              s.updateTimeUtc := by
          apply max_le
          · linarith
          · exact hj
        obtain ⟨F2, CH⟩ :=
          ih jtail
            ⟨s.clusterId, s.deviceUuids,
              max (prevNew.updateTimeUtc + UPDATE_PAYLOAD_SEC) j.windowStart⟩
            s hs2le hchain2 hlen2 hf2
        refine ⟨List.Forall₂.cons hs2le F2, ?_⟩
        rw [List.chain'_cons]
        exact ⟨le_max_left _ _, CH⟩
      · rw [if_neg hcond]
        have hsle : prevNew.updateTimeUtc + UPDATE_PAYLOAD_SEC ≤ s.updateTimeUtc := by linarith
        obtain ⟨F2, CH⟩ := ih jtail s s le_rfl hchain2 hlen2 hf2
        refine ⟨List.Forall₂.cons le_rfl F2, ?_⟩
        rw [List.chain'_cons]
        exact ⟨hsle, CH⟩

theorem feasibleSorted_sorted (req : SchedReq) :
    List.Sorted jobLE (feasibleSorted req) :=
  List.sorted_insertionSort jobLE _

/-- C5 (amended): for every request and clock value, (a) the handler
returns the repaired schedule built from the pre-repair greedy
placement; (b) before repair, consecutive jobs' START times are at
least max(payload, gap) apart - so the end-to-start gap is only
guaranteed to be max(payload, gap) - payload (5 s with the repo's
constants), NOT minimumInterClusterGap as the frozen claim states; (c)
the repair stage never moves a job later (pointwise ≤ against the
pre-repair schedule); (d) after repair, consecutive jobs never overlap:
each job's start is at least the previous job's end, i.e. the
end-to-start gap stays ≥ 0. Both lists are strictly increasing in
updateTimeUtc, so list order is updateTimeUtc order. These hold even
though the repair stage pairs schedule entries with the wrong jobs when
placement has dropped some job (see the C1 theorem). -/
theorem C5_amended_gap_invariants (req : SchedReq) (now : Int) :
    scheduling req now = .ok (repairAll (feasibleSorted req) (schedulePre req now)) ∧
    List.Chain' (fun a b : SJob =>
      a.updateTimeUtc + max UPDATE_PAYLOAD_SEC MIN_CLUSTER_GAP_SEC ≤ b.updateTimeUtc)
      (schedulePre req now) ∧
    List.Forall₂ (fun a b : SJob => a.updateTimeUtc ≤ b.updateTimeUtc)
      (repairAll (feasibleSorted req) (schedulePre req now)) (schedulePre req now) ∧
    List.Chain' (fun a b : SJob => a.updateTimeUtc + UPDATE_PAYLOAD_SEC ≤ b.updateTimeUtc)
      (repairAll (feasibleSorted req) (schedulePre req now)) := by
  have hchain := place_chain now (feasibleSorted req) now
  refine ⟨rfl, hchain, ?_⟩
  cases hpre : schedulePre req now with
  | nil => exact ⟨List.Forall₂.nil, trivial⟩
  | cons s0 rest =>
    simp only [repairAll]
    have hlen_pre : (s0 :: rest).length ≤ (feasibleSorted req).length := by
      rw [← hpre]
      exact place_length_le now (feasibleSorted req) now
    obtain ⟨jh, jt, hj⟩ : ∃ jh jt, feasibleSorted req = jh :: jt := by
      cases hJ : feasibleSorted req with
      | nil => rw [hJ] at hlen_pre; simp at hlen_pre
      | cons a b => exact ⟨a, b, rfl⟩
    have hchain' : List.Chain' (fun a b : SJob =>
        a.updateTimeUtc + max UPDATE_PAYLOAD_SEC MIN_CLUSTER_GAP_SEC ≤ b.updateTimeUtc)
        (s0 :: rest) := hpre ▸ hchain
    have hws := place_ws_le now (feasibleSorted req) now (feasibleSorted_sorted req)
    have hf : ∀ i, i < rest.length →
        (((feasibleSorted req).drop 1).getD i defJob).windowStart ≤
          (rest.getD i defSJob).updateTimeUtc := by
      intro i hi
      have h1 : i + 1 < (place now (feasibleSorted req) now).length := by
        have : i + 1 < (schedulePre req now).length := by
          rw [hpre]; simpa using Nat.succ_lt_succ hi
        exact this
      have hstep := hws (i + 1) h1
      have hpre2 : place now (feasibleSorted req) now = s0 :: rest := hpre
      rw [hpre2, hj] at hstep
      rw [hj]
      simpa using hstep
    have hlen2 : rest.length ≤ ((feasibleSorted req).drop 1).length := by
      rw [hj] at hlen_pre ⊢
      simpa using Nat.le_of_succ_le_succ (by simpa using hlen_pre)
    obtain ⟨F2, CH⟩ :=
      repairGo_spec rest ((feasibleSorted req).drop 1) s0 s0 le_rfl hchain' hlen2 hf
    exact ⟨List.Forall₂.cons le_rfl F2, CH⟩

/-- C5 counterexample to the claim as frozen: before repair the gap
between the first job's end (5 + 25 = 30) and the second job's start
(35) is 5 s, which is smaller than minimumInterClusterGap = 30 s; the
placement cursor enforces max(payload, gap) between consecutive STARTS,
not between an end and the next start. -/
theorem C5_cex_pre_repair_gap_below_min :
    schedulePre c5Req 0 = [⟨"A", ["a"], 5⟩, ⟨"B", ["b"], 35⟩] ∧
    ¬ ((5 : Int) + UPDATE_PAYLOAD_SEC + MIN_CLUSTER_GAP_SEC ≤ 35) := by decide

/-! ## Clustering handler (/ai/clustering) -/

/-- One telemetry record of the clustering request body. -/
structure DeviceTelemetry where
  deviceUuid : String
  busyFraction : ℚ
  avgCpu : ℚ
  avgMem : ℚ
  avgNet : ℚ
deriving DecidableEq

/-- One plotData entry of the clustering response. -/
structure PlotPoint where
  deviceUuid : String
  x : ℚ
  y : ℚ
  clusterId : String
  isSynthetic : Bool
deriving DecidableEq

/-- One clusters entry of the clustering response. -/
structure ClusterOut where
  clusterId : String
  deviceUuids : List String
deriving DecidableEq

/-- The clustering response body. -/
structure ClusteringOut where
  clusters : List ClusterOut
  plotData : List PlotPoint
deriving DecidableEq

/-- The 4-feature vector of one device, in source order. -/
def featuresOf (d : DeviceTelemetry) : List ℚ :=
  [d.busyFraction, d.avgCpu, d.avgMem, d.avgNet]

/-- Abstract parameters standing for the data-fitted quantities of the
external sklearn/numpy library calls: the StandardScaler per-column
(mean, scale) statistics, the fitted PCA component matrix
components transposed (4 rows by 2 columns), and the rng.normal noise
draw for each synthetic point index. Every claim proved below holds
for all values of these parameters; concrete witnesses instantiate
them. -/
structure LibParams where
  colParams : List (List ℚ) → List (ℚ × ℚ)
  pcaComp : List (List ℚ) → List (List ℚ)
  noiseRow : Nat → List ℚ

/-- StandardScaler transform of one row given fitted per-column
statistics: each feature maps to (x - mean) / scale. -/
def applyScalerRow (ps : List (ℚ × ℚ)) (row : List ℚ) : List ℚ :=
  List.zipWith (fun x p => (x - p.1) / p.2) row ps

/-- StandardScaler().fit_transform: the fitted statistics applied to
every row. -/
def applyScaler (ps : List (ℚ × ℚ)) (X : List (List ℚ)) : List (List ℚ) :=
  X.map (applyScalerRow ps)

/-- Squared Euclidean distance between two feature rows. -/
def sqDist (a b : List ℚ) : ℚ :=
  ((List.zipWith (fun x y => x - y) a b).map (fun z => z * z)).sum

/-- Indices of the points within radius eps of point i (compared on
squared distances; a point is always its own neighbour since its
squared distance 0 is at most eps squared). -/
def nbrs (eps : ℚ) (X : List (List ℚ)) (i : Nat) : List Nat :=
  (List.range X.length).filter (fun j => sqDist (X.getD i []) (X.getD j []) ≤ eps * eps)

/-- DBSCAN core-point test: at least minS points (the point itself
included) within radius eps. -/
def isCore (eps : ℚ) (minS : Nat) (X : List (List ℚ)) (i : Nat) : Bool :=
  minS ≤ (nbrs eps X i).length

/-- One min-propagation step of the component computation over core
points: each core point takes the smallest representative among its
core neighbours. -/
def repStep (eps : ℚ) (minS : Nat) (X : List (List ℚ)) (rep : List Nat) : List Nat :=
  (List.range X.length).map (fun i =>
    if isCore eps minS X i then
      ((nbrs eps X i).filter (fun j => isCore eps minS X j)).foldl
        (fun acc j => min acc (rep.getD j j)) (rep.getD i i)
    else rep.getD i i)

/-- Stable representatives after n propagation steps (n steps suffice
for min-propagation over an n-vertex graph to converge). -/
def reps (eps : ℚ) (minS : Nat) (X : List (List ℚ)) : List Nat :=
  (repStep eps minS X)^[X.length] (List.range X.length)

/-- The distinct values of a list in first-occurrence order. -/
def firstOccur (l : List Nat) : List Nat :=
  l.foldl (fun acc r => if r ∈ acc then acc else acc ++ [r]) []

/-- Model of sklearn DBSCAN(eps, min_samples).fit_predict on the scaled
matrix: connected components of core points within radius eps are
numbered 0,1,2,... in discovery (index) order; a non-core point joins
the cluster of a core neighbour when one exists and is labelled noise
(-1) otherwise. -/
def dbscanLabels (eps : ℚ) (minS : Nat) (X : List (List ℚ)) : List Int :=
  let rp := reps eps minS X
  let keys := firstOccur
    (((List.range X.length).filter (fun i => isCore eps minS X i)).map
      (fun i => rp.getD i i))
  (List.range X.length).map (fun i =>
    if isCore eps minS X i then (keys.indexOf (rp.getD i i) : Int)
    else
      match (nbrs eps X i).find? (fun j => isCore eps minS X j) with
      | some j => (keys.indexOf (rp.getD j j) : Int)
      | none => -1)

/-- Number of non-noise clusters of a labelling, as the source computes
it: the size of the set of labels different from -1. -/
def clusterCount (lbl : List Int) : Nat :=
  ((lbl.filter (fun l => l != -1)).dedup).length

/-- The candidate radius list np.arange(0.4, 2.05, 0.1):
0.4, 0.5, ..., 2.0 (17 values). -/
def EPS_RANGE : List ℚ := (List.range 17).map (fun k : Nat => 2/5 + (k : ℚ) / 10)

/-- The body of the radius-search loop: bestDiff and best carry the
running best (initially 1e9 and None); a strictly smaller diff replaces
the best, and the loop breaks right after an exact match. -/
def epsSearchGo (labelsAt : ℚ → List Int) (target : Nat) :
    List ℚ → ℚ → Option (List Int) → Option (List Int)
  | [], _, best => best
  | e :: rest, bestDiff, best =>
    let lbl := labelsAt e
    let diff : ℚ := |(clusterCount lbl : ℚ) - (target : ℚ)|
    let best2 := if diff < bestDiff then some lbl else best
    let bestDiff2 := if diff < bestDiff then diff else bestDiff
    if diff = 0 then best2 else epsSearchGo labelsAt target rest bestDiff2 best2

/-- The whole radius search with the source's initial best_diff 1e9. -/
def epsSearch (labelsAt : ℚ → List Int) (target : Nat) (cands : List ℚ) :
    Option (List Int) :=
  epsSearchGo labelsAt target cands (10 ^ 9) none

/-- Feature count of a matrix (length of its first row). -/
def nFeatures (X : List (List ℚ)) : Nat := (X.headD []).length

/-- Vector sum; used for column sums and centroids. -/
def vecAdd (a b : List ℚ) : List ℚ := List.zipWith (fun x y => x + y) a b

/-- Column sums of a matrix. -/
def colSum (X : List (List ℚ)) : List ℚ :=
  X.foldl vecAdd ((X.headD []).map (fun _ => 0))

/-- Column means of a matrix (np.mean(axis=0)). -/
def colMean (X : List (List ℚ)) : List ℚ :=
  (colSum X).map (fun s => s / (X.length : ℚ))

/-- Product of a 4-row, 2-column matrix with a row vector (row @ W). -/
def matVec2 (W : List (List ℚ)) (row : List ℚ) : ℚ × ℚ :=
  ((List.zipWith (fun x wr => x * wr.getD 0 0) row W).sum,
   (List.zipWith (fun x wr => x * wr.getD 1 0) row W).sum)

/-- PCA(n_components=2).fit_transform on the scaled matrix: the data is
centred on the column means and projected through the fitted component
matrix. -/
def pcaTransform (W : List (List ℚ)) (X : List (List ℚ)) : List (ℚ × ℚ) :=
  let mu := colMean X
  X.map (fun row => matVec2 W (List.zipWith (fun x m => x - m) row mu))

/-- dict.setdefault(cid, []).append(device): extends the entry of cid
in insertion order, creating it at the end when absent. -/
def addTo (mp : List (String × List String)) (cid d : String) :
    List (String × List String) :=
  match mp with
  | [] => [(cid, [d])]
  | (c, ds) :: rest =>
    if c = cid then (c, ds ++ [d]) :: rest else (c, ds) :: addTo rest cid d

/-- The real_cluster_map building loop over enumerate(labels). -/
def buildClusterMap : List (Int × String) → List (String × List String) →
    List (String × List String)
  | [], mp => mp
  | (l, d) :: rest, mp => buildClusterMap rest (addTo mp (toString l) d)

/-- The real plotData entries, one per device in input order. -/
def mkRealPlot : List String → List Int → List (ℚ × ℚ) → List PlotPoint
  | d :: ds, l :: ls, xy :: xys =>
    ⟨d, xy.1, xy.2, toString l, false⟩ :: mkRealPlot ds ls xys
  | _, _, _ => []

/-- The synthetic device name f-string synthetic_ with the index
zero-padded to width 4. -/
def synName (k : Nat) : String :=
  "synthetic_" ++ (String.mk (List.replicate (4 - (toString k).length) '0') ++ toString k)

/-- Python 3 round on an exact rational: round-half-to-even. -/
def pyRound (q : ℚ) : Int :=
  if q - ⌊q⌋ = 1 / 2 then (if ⌊q⌋ % 2 = 0 then ⌊q⌋ else ⌊q⌋ + 1) else round q

/-- The rows of the scaled matrix belonging to the given member
devices, located with real_ids.index (first occurrence). -/
def rowsOf (Xs : List (List ℚ)) (ids devs : List String) : List (List ℚ) :=
  devs.map (fun d => Xs.getD (ids.indexOf d) [])

/-- The 4-D centroid of one cluster: the column means of its member
rows. -/
def centroidOf (Xs : List (List ℚ)) (ids devs : List String) : List ℚ :=
  colMean (rowsOf Xs ids devs)

/-- real_centroids: the non-noise map entries, in insertion order, with
their centroids. -/
def realCentroids (Xs : List (List ℚ)) (ids : List String)
    (cmap : List (String × List String)) : List (String × List ℚ) :=
  (cmap.filter (fun p => p.1 != "-1")).map (fun p => (p.1, centroidOf Xs ids p.2))

/-- total_real: the real population over the nonempty map entries. -/
def totalReal (cmap : List (String × List String)) : Nat :=
  ((cmap.filter (fun p => p.2 != [])).map (fun p => p.2.length)).sum

/-- Member count of one map entry (real_cluster_map[cid]). -/
def cmapLen (cmap : List (String × List String)) (cid : String) : Nat :=
  ((cmap.find? (fun p => p.1 == cid)).map (fun p => p.2.length)).getD 0

/-- The synthetic points of one cluster: share Gaussian draws around
the centroid in feature space, projected through the component matrix
(the source does NOT centre this product, unlike fit_transform). -/
def synPointsFor (P : LibParams) (W : List (List ℚ)) (centre : List ℚ) (cid : String)
    (fakeId share : Nat) : List PlotPoint :=
  (List.range share).map (fun k =>
    let pt4 := vecAdd centre (P.noiseRow (fakeId + k))
    let xy := matVec2 W pt4
    ⟨synName (fakeId + k), xy.1, xy.2, cid, true⟩)

/-- The synthetic generation loop over real_centroids: share is the
proportionally rounded allocation; zero-share clusters are skipped
without advancing fake_id or the placitional cluster counter. Returns
the points plus the number of clusters that received a positive share
(syn_cluster_idx - 1). -/
def buildSyn (P : LibParams) (W : List (List ℚ)) (nFake : Int) (total : Nat)
    (cmap : List (String × List String)) :
    List (String × List ℚ) → Nat → List PlotPoint × Nat
  | [], _ => ([], 0)
  | (cid, centre) :: rest, fakeId =>
    let share : Int := pyRound (((nFake * (cmapLen cmap cid : Int) : Int) : ℚ) / (total : ℚ))
    if share = 0 then buildSyn P W nFake total cmap rest fakeId
    else
      let pts := synPointsFor P W centre cid fakeId share.toNat
      let more := buildSyn P W nFake total cmap rest (fakeId + share.toNat)
      (pts ++ more.1, more.2 + 1)

/-- The clusters array of the response: the real map entries followed
by one empty placeholder cluster S1..Sk per positive-share synthetic
batch. -/
def mkClusters (cmap : List (String × List String)) (synCnt : Nat) : List ClusterOut :=
  cmap.map (fun p => ⟨p.1, p.2⟩) ++
    (List.range synCnt).map (fun k => ⟨"S" ++ toString (k + 1), []⟩)

/-- The device uuid list of the input, in input order. -/
def realIdsOf (data : List DeviceTelemetry) : List String :=
  data.map (fun d => d.deviceUuid)

/-- The scaled feature matrix X_scaled of the input. -/
def scaledOf (P : LibParams) (data : List DeviceTelemetry) : List (List ℚ) :=
  applyScaler (P.colParams (data.map featuresOf)) (data.map featuresOf)

/-- The normal-response payload of the clustering handler, assembled
exactly as the source body does after the density labelling: the
2-D projection of the real points, the real cluster map, the synthetic
points and the clusters array with its trailing empty placeholders. -/
def mkResp (P : LibParams) (data : List DeviceTelemetry) (labels : List Int) :
    ClusteringOut :=
  let realIds := realIdsOf data
  let Xs := scaledOf P data
  let W := P.pcaComp Xs
  let coords := pcaTransform W Xs
  let plotReal := mkRealPlot realIds labels coords
  let cmap := buildClusterMap (labels.zip realIds) []
  let cents := realCentroids Xs realIds cmap
  let syn := buildSyn P W (max 0 (TARGET_TOTAL_POINTS - (realIds.length : Int)))
    (totalReal cmap) cmap cents 0
  ⟨mkClusters cmap syn.2, plotReal ++ syn.1⟩

/-- The /ai/clustering handler. Control flow mirrors the source: an
empty payload is rejected with a 400; if the radius search were to end
with best_lbl still None the plot loop would iterate over None
(TypeError); PCA raises ValueError when it cannot fit 2 components
(fewer than 2 samples or features); and when no synthetic points are
needed (at least TARGET_TOTAL_POINTS real devices) the final clusters
expression reads the name syn_cluster_idx, which was only assigned
inside the skipped synthetic block, raising NameError. -/
def clustering (P : LibParams) (data : List DeviceTelemetry) : Resp ClusteringOut :=
  if data = [] then .clientError "empty payload"
  else
    match epsSearch (fun e => dbscanLabels e 1 (scaledOf P data)) 6 EPS_RANGE with
    | none => .serverError .typeError
    | some labels =>
      if 2 ≤ (scaledOf P data).length ∧ 2 ≤ nFeatures (scaledOf P data) then
        if max 0 (TARGET_TOTAL_POINTS - ((realIdsOf data).length : Int)) = 0 then
          .serverError .nameError
        else .ok (mkResp P data labels)
      else .serverError .valueError

/-! ## Radius search (C6) -/

/-- The diff the radius-search loop computes for one candidate:
absolute distance between the candidate's cluster count and the target
count. -/
def searchDiff (labelsAt : ℚ → List Int) (target : Nat) (e : ℚ) : ℚ :=
  |(clusterCount (labelsAt e) : ℚ) - (target : ℚ)|

theorem searchDiff_nonneg (labelsAt : ℚ → List Int) (target : Nat) (e : ℚ) :
    0 ≤ searchDiff labelsAt target e := abs_nonneg _

theorem epsSearchGo_spec (labelsAt : ℚ → List Int) (target : Nat) :
    ∀ (cands : List ℚ) (bestDiff : ℚ) (best : Option (List Int)),
      0 < bestDiff →
      (∃ i, i < cands.length ∧
        searchDiff labelsAt target (cands.getD i 0) < bestDiff ∧
        epsSearchGo labelsAt target cands bestDiff best =
          some (labelsAt (cands.getD i 0)) ∧
        (∀ j, j < i → searchDiff labelsAt target (cands.getD i 0) <
          searchDiff labelsAt target (cands.getD j 0)) ∧
        (∀ j, j < cands.length → searchDiff labelsAt target (cands.getD i 0) ≤
          searchDiff labelsAt target (cands.getD j 0))) ∨
      ((∀ j, j < cands.length →
          bestDiff ≤ searchDiff labelsAt target (cands.getD j 0)) ∧
        epsSearchGo labelsAt target cands bestDiff best = best) := by
  intro cands
  induction cands with
  | nil =>
    intro bestDiff best hbd
    exact Or.inr ⟨fun j hj => absurd hj (by simp), rfl⟩
  | cons e rest ih =>
    intro bestDiff best hbd
    have hd0 : searchDiff labelsAt target e =
        |(clusterCount (labelsAt e) : ℚ) - (target : ℚ)| := rfl
    by_cases h0 : |(clusterCount (labelsAt e) : ℚ) - (target : ℚ)| = 0
    · left
      refine ⟨0, Nat.succ_pos _, ?_, ?_, ?_, ?_⟩
      · simpa [searchDiff, h0] using hbd
      · have hlt2 : |(clusterCount (labelsAt e) : ℚ) - (target : ℚ)| < bestDiff := by
          rw [h0]; exact hbd
        simp only [epsSearchGo]
        rw [if_pos h0, if_pos hlt2]
        simp
      · intro j hj; exact absurd hj (Nat.not_lt_zero j)
      · intro j hj
        simp only [List.getD_cons_zero, searchDiff, h0]
        exact searchDiff_nonneg labelsAt target _
    · have hdpos : 0 < |(clusterCount (labelsAt e) : ℚ) - (target : ℚ)| :=
        lt_of_le_of_ne (abs_nonneg _) (Ne.symm h0)
      by_cases hlt : |(clusterCount (labelsAt e) : ℚ) - (target : ℚ)| < bestDiff
      · have hrec :
            epsSearchGo labelsAt target (e :: rest) bestDiff best =
              epsSearchGo labelsAt target rest
                |(clusterCount (labelsAt e) : ℚ) - (target : ℚ)| (some (labelsAt e)) := by
          simp only [epsSearchGo]
          rw [if_pos hlt, if_pos hlt, if_neg h0]
        rcases ih _ (some (labelsAt e)) hdpos with
          ⟨i, hi, hdi, heq, hfirst, hmin⟩ | ⟨hall, heq⟩
        · left
          refine ⟨i + 1, Nat.succ_lt_succ hi, ?_, ?_, ?_, ?_⟩
          · simpa using lt_trans (by simpa using hdi) hlt
          · rw [hrec]; simpa using heq
          · intro j hj
            cases j with
            | zero =>
              simpa [searchDiff] using (by simpa using hdi)
            | succ j =>
              simpa using hfirst j (Nat.lt_of_succ_lt_succ hj)
          · intro j hj
            cases j with
            | zero =>
              simpa [searchDiff] using le_of_lt (by simpa using hdi)
            | succ j =>
              simpa using hmin j (Nat.lt_of_succ_lt_succ hj)
        · left
          refine ⟨0, Nat.succ_pos _, ?_, ?_, ?_, ?_⟩
          · simpa [searchDiff] using hlt
          · rw [hrec]; simpa using heq
          · intro j hj; exact absurd hj (Nat.not_lt_zero j)
          · intro j hj
            cases j with
            | zero => exact le_refl _
            | succ j =>
              have := hall j (by simpa using Nat.lt_of_succ_lt_succ hj)
              simpa [searchDiff] using this
      · have hrec :
            epsSearchGo labelsAt target (e :: rest) bestDiff best =
              epsSearchGo labelsAt target rest bestDiff best := by
          simp only [epsSearchGo]
          rw [if_neg hlt, if_neg hlt, if_neg h0]
        have hble : bestDiff ≤ |(clusterCount (labelsAt e) : ℚ) - (target : ℚ)| :=
          le_of_not_lt hlt
        rcases ih bestDiff best hbd with
          ⟨i, hi, hdi, heq, hfirst, hmin⟩ | ⟨hall, heq⟩
        · left
          refine ⟨i + 1, Nat.succ_lt_succ hi, ?_, ?_, ?_, ?_⟩
          · simpa using hdi
          · rw [hrec]; simpa using heq
          · intro j hj
            cases j with
            | zero =>
              simp only [List.getD_cons_zero, List.getD_cons_succ, searchDiff]
              exact lt_of_lt_of_le (by simpa [searchDiff] using hdi) hble
            | succ j =>
              simpa using hfirst j (Nat.lt_of_succ_lt_succ hj)
          · intro j hj
            cases j with
            | zero =>
              simp only [List.getD_cons_zero, List.getD_cons_succ, searchDiff]
              exact le_trans (le_of_lt (by simpa [searchDiff] using hdi)) hble
            | succ j =>
              simpa using hmin j (Nat.lt_of_succ_lt_succ hj)
        · right
          refine ⟨?_, by rw [hrec]; exact heq⟩
          intro j hj
          cases j with
          | zero => simpa [searchDiff] using hble
          | succ j => simpa using hall j (Nat.lt_of_succ_lt_succ hj)

/-- C6: the radius search returns the labelling of the candidate at the
FIRST index attaining the minimal diff to the target cluster count.
In particular a first exact match wins (its diff 0 is minimal and every
earlier candidate has a strictly larger diff), and among equally close
candidates the earliest - the smallest radius, since the candidates
ascend - wins. The final conjunct makes the exact-match case explicit.
The bound hypothesis reflects the source's initial best_diff of 1e9. -/
theorem C6_radius_search_first_argmin (labelsAt : ℚ → List Int) (target : Nat)
    (cands : List ℚ) (hne : cands ≠ [])
    (hb : ∀ e ∈ cands, searchDiff labelsAt target e < 10 ^ 9) :
    ∃ i, i < cands.length ∧
      epsSearch labelsAt target cands = some (labelsAt (cands.getD i 0)) ∧
      (∀ j, j < i → searchDiff labelsAt target (cands.getD i 0) <
        searchDiff labelsAt target (cands.getD j 0)) ∧
      (∀ j, j < cands.length → searchDiff labelsAt target (cands.getD i 0) ≤
        searchDiff labelsAt target (cands.getD j 0)) ∧
      (∀ j, j < cands.length → clusterCount (labelsAt (cands.getD j 0)) = target →
        clusterCount (labelsAt (cands.getD i 0)) = target ∧ i ≤ j) := by
  have hpos : (0 : ℚ) < 10 ^ 9 := by norm_num
  rcases epsSearchGo_spec labelsAt target cands (10 ^ 9) none hpos with
    ⟨i, hi, hdi, heq, hfirst, hmin⟩ | ⟨hall, heq⟩
  · refine ⟨i, hi, heq, hfirst, hmin, ?_⟩
    intro j hj hexact
    have hdj : searchDiff labelsAt target (cands.getD j 0) = 0 := by
      unfold searchDiff
      rw [hexact, sub_self, abs_zero]
    have hdi0 : searchDiff labelsAt target (cands.getD i 0) = 0 := by
      have h1 := hmin j hj
      rw [hdj] at h1
      exact le_antisymm h1 (searchDiff_nonneg _ _ _)
    have hcnt : clusterCount (labelsAt (cands.getD i 0)) = target := by
      have := abs_eq_zero.mp hdi0
      have h2 : (clusterCount (labelsAt (cands.getD i 0)) : ℚ) = (target : ℚ) := by
        linarith [sub_eq_zero.mp this]
      exact_mod_cast h2
    refine ⟨hcnt, ?_⟩
    by_contra hij
    have hji : j < i := Nat.lt_of_not_le hij
    have h2 := hfirst j hji
    rw [hdj] at h2
    exact absurd h2 (not_lt_of_le (searchDiff_nonneg _ _ _))
  · exfalso
    have h0 : 0 < cands.length := List.length_pos.mpr hne
    have hmem : cands.getD 0 0 ∈ cands := by
      rw [List.getD_eq_get _ _ h0]
      exact List.get_mem _ _ _
    exact absurd (hall 0 h0) (not_le_of_lt (hb _ hmem))

/-! ## Error paths of the clustering handler (C3, C2) -/

/-- Concrete library parameters used by witnesses: identity scaling
(mean 0, scale 1 per column), a zero component matrix and zero noise
draws. -/
def testParams : LibParams :=
  ⟨fun _ => [(0, 1), (0, 1), (0, 1), (0, 1)],
   fun _ => [[0, 0], [0, 0], [0, 0], [0, 0]],
   fun _ => [0, 0, 0, 0]⟩

theorem applyScaler_length (ps : List (ℚ × ℚ)) (X : List (List ℚ)) :
    (applyScaler ps X).length = X.length := by
  simp [applyScaler]

theorem scaledOf_length (P : LibParams) (data : List DeviceTelemetry) :
    (scaledOf P data).length = data.length := by
  rw [scaledOf, applyScaler_length, List.length_map]

theorem realIdsOf_length (data : List DeviceTelemetry) :
    (realIdsOf data).length = data.length := List.length_map _ _

theorem dbscanLabels_length (eps : ℚ) (minS : Nat) (X : List (List ℚ)) :
    (dbscanLabels eps minS X).length = X.length := by
  simp [dbscanLabels]

theorem clusterCount_le (lbl : List Int) : clusterCount lbl ≤ lbl.length :=
  le_trans (List.Sublist.length_le (List.dedup_sublist _))
    (List.length_filter_le _ _)

theorem searchDiff_dbscan_lt (Xs : List (List ℚ)) (hn : Xs.length ≤ 10 ^ 9) (e : ℚ) :
    searchDiff (fun e2 => dbscanLabels e2 1 Xs) 6 e < 10 ^ 9 := by
  have hc : clusterCount (dbscanLabels e 1 Xs) ≤ Xs.length :=
    le_trans (clusterCount_le _) (le_of_eq (dbscanLabels_length e 1 Xs))
  have hc2 : (clusterCount (dbscanLabels e 1 Xs) : ℚ) ≤ (Xs.length : ℚ) := by
    exact_mod_cast hc
  have hn2 : (Xs.length : ℚ) ≤ 10 ^ 9 := by exact_mod_cast hn
  have hge : (0 : ℚ) ≤ (clusterCount (dbscanLabels e 1 Xs) : ℚ) := Nat.cast_nonneg _
  rw [searchDiff, abs_lt]
  have h6 : ((6 : Nat) : ℚ) = 6 := by norm_num
  rw [h6]
  constructor
  · linarith
  · linarith

theorem EPS_RANGE_ne_nil : EPS_RANGE ≠ [] := by
  intro h
  have hlen : EPS_RANGE.length = 17 := by
    rw [EPS_RANGE, List.length_map, List.length_range]
  rw [h] at hlen
  exact absurd hlen (by norm_num)

theorem epsSearch_isSome (labelsAt : ℚ → List Int) (target : Nat) (cands : List ℚ)
    (hne : cands ≠ [])
    (hlt : searchDiff labelsAt target (cands.getD 0 0) < 10 ^ 9) :
    ∃ l, epsSearch labelsAt target cands = some l := by
  have hpos : (0 : ℚ) < 10 ^ 9 := by norm_num
  rcases epsSearchGo_spec labelsAt target cands (10 ^ 9) none hpos with
    ⟨i, hi, hdi, heq, _, _⟩ | ⟨hall, heq⟩
  · exact ⟨_, heq⟩
  · exact absurd (hall 0 (List.length_pos.mpr hne)) (not_le_of_lt hlt)

/-- The radius search of the clustering handler always finds a
labelling on inputs of at most 1e9 devices (the first candidate already
beats the initial best_diff of 1e9). -/
theorem clustering_search_some (P : LibParams) (data : List DeviceTelemetry)
    (hbig : data.length ≤ 10 ^ 9) :
    ∃ labels,
      epsSearch (fun e => dbscanLabels e 1 (scaledOf P data)) 6 EPS_RANGE =
        some labels := by
  refine epsSearch_isSome _ 6 EPS_RANGE EPS_RANGE_ne_nil ?_
  refine searchDiff_dbscan_lt _ ?_ _
  rw [scaledOf_length]
  exact hbig

/-- On any single-device input the clustering handler evaluates to an
uncaught ValueError: the scaler and the density scan succeed, but the
2-component projection cannot be fitted on one sample. -/
theorem clustering_singleton_errors (P : LibParams) (d : DeviceTelemetry) :
    clustering P [d] = .serverError .valueError := by
  obtain ⟨labels, hlab⟩ := clustering_search_some P [d] (by norm_num)
  rw [clustering, if_neg (List.cons_ne_nil d [])]
  simp only [hlab]
  rw [if_neg]
  intro hc
  have h1 : (scaledOf P [d]).length = 1 := by rw [scaledOf_length]; rfl
  rw [h1] at hc
  exact absurd hc.1 (by norm_num)

/-- C3 (amended): on an input with a single device (N = 1 < 2) the
clustering handler does NOT short-circuit to a trivial single cluster.
There is no InsufficientDataError anywhere in the code: the scaler
succeeds even on one sample, the density scan labels the lone point,
and then the 2-component projection cannot be fitted on a single
sample, so the whole request aborts with an uncaught ValueError
(HTTP 500). -/
theorem C3_amended_single_device_errors (P : LibParams)
    (data : List DeviceTelemetry) (h1 : data.length = 1) :
    clustering P data = .serverError .valueError := by
  cases data with
  | nil => exact absurd h1 (by simp)
  | cons d rest =>
    have hrest : rest = [] := by simpa using h1
    subst hrest
    exact clustering_singleton_errors P d

/-- C3 witness: the theorem applied to a concrete one-device payload. -/
theorem C3_amended_single_device_errors_witness :
    clustering testParams [⟨"solo", 1/2, 10, 20, 5⟩] = .serverError .valueError :=
  C3_amended_single_device_errors testParams [⟨"solo", 1/2, 10, 20, 5⟩] rfl

/-- C3 counterexample to the claim as frozen: on a concrete
single-device payload the handler aborts with a server error; it does
not return a normal response, in particular not a single trivial
cluster containing the device. -/
theorem C3_cex_single_device_aborts :
    clustering testParams [⟨"solo", 1/2, 10, 20, 5⟩] = .serverError .valueError ∧
    (clustering testParams [⟨"solo", 1/2, 10, 20, 5⟩]).isOk = false := by
  have h := clustering_singleton_errors testParams ⟨"solo", 1/2, 10, 20, 5⟩
  exact ⟨h, by rw [h]; rfl⟩

/-- The number of scaled features equals the number of fitted scaler
columns capped at 4 (each raw feature row has the four telemetry
fields). -/
theorem nFeatures_scaledOf (P : LibParams) (d : DeviceTelemetry)
    (rest : List DeviceTelemetry) :
    nFeatures (scaledOf P (d :: rest)) =
      min 4 (P.colParams ((d :: rest).map featuresOf)).length := by
  simp only [nFeatures, scaledOf, applyScaler, applyScalerRow, List.map_cons,
    List.headD_cons, List.length_zipWith, featuresOf]
  rfl

/-- C2 fails on the code: whenever the input already carries at least
TARGET_TOTAL_POINTS (= 100) devices, n_fake is 0, the synthetic block
is skipped, and the final clusters expression raises NameError because
syn_cluster_idx was only ever assigned inside that skipped block. The
handler therefore aborts with an HTTP 500 instead of returning a normal
response with zero synthetic points. The column hypothesis is
sklearn's guarantee that the fitted scaler has one statistic per
feature; the size bound keeps the radius search's initial best_diff of
1e9 unbeaten by no candidate, as in any realistic request. -/
theorem C2_at_target_raises_nameError (P : LibParams) (data : List DeviceTelemetry)
    (hcol : (P.colParams (data.map featuresOf)).length = 4)
    (h100 : 100 ≤ data.length) (hbig : data.length ≤ 10 ^ 9) :
    clustering P data = .serverError .nameError := by
  obtain ⟨labels, hlab⟩ := clustering_search_some P data hbig
  cases data with
  | nil => exact absurd h100 (by simp)
  | cons d rest =>
    rw [clustering, if_neg (List.cons_ne_nil d rest)]
    simp only [hlab]
    rw [if_pos, if_pos]
    · rw [realIdsOf_length, TARGET_TOTAL_POINTS]
      omega
    · constructor
      · rw [scaledOf_length]
        omega
      · rw [nFeatures_scaledOf P d rest, hcol]
        norm_num

/-- Devices used by the C2 witness: the k-th device is named by its
index and reports all-zero telemetry. -/
def manyDevices (n : Nat) : List DeviceTelemetry :=
  (List.range n).map (fun k => ⟨toString k, 0, 0, 0, 0⟩)

/-- C2 witness: the theorem applied to a concrete 100-device request;
the handler raises NameError on it. -/
theorem C2_at_target_raises_nameError_witness :
    clustering testParams (manyDevices 100) = .serverError .nameError :=
  C2_at_target_raises_nameError testParams (manyDevices 100) rfl
    (by rw [manyDevices, List.length_map, List.length_range])
    (by rw [manyDevices, List.length_map, List.length_range]; norm_num)

/-! ## The normal path of the clustering handler -/

theorem epsSearchGo_mem (labelsAt : ℚ → List Int) (target : Nat) :
    ∀ (cands : List ℚ) (bd : ℚ) (best : Option (List Int)) (l : List Int),
      epsSearchGo labelsAt target cands bd best = some l →
      best = some l ∨ ∃ e ∈ cands, l = labelsAt e := by
  intro cands
  induction cands with
  | nil => intro bd best l h; exact Or.inl h
  | cons e rest ih =>
    intro bd best l h
    simp only [epsSearchGo] at h
    by_cases h0 : |(clusterCount (labelsAt e) : ℚ) - (target : ℚ)| = 0
    · rw [if_pos h0] at h
      by_cases hlt : |(clusterCount (labelsAt e) : ℚ) - (target : ℚ)| < bd
      · rw [if_pos hlt] at h
        exact Or.inr ⟨e, List.mem_cons_self e rest, (Option.some.injEq _ _ ▸ h).symm⟩
      · rw [if_neg hlt] at h
        exact Or.inl h
    · rw [if_neg h0] at h
      by_cases hlt : |(clusterCount (labelsAt e) : ℚ) - (target : ℚ)| < bd
      · rw [if_pos hlt, if_pos hlt] at h
        rcases ih _ _ _ h with hbest | ⟨e2, he2, hl2⟩
        · exact Or.inr ⟨e, List.mem_cons_self e rest, (Option.some.injEq _ _ ▸ hbest).symm⟩
        · exact Or.inr ⟨e2, List.mem_cons_of_mem e he2, hl2⟩
      · rw [if_neg hlt, if_neg hlt] at h
        rcases ih _ _ _ h with hbest | ⟨e2, he2, hl2⟩
        · exact Or.inl hbest
        · exact Or.inr ⟨e2, List.mem_cons_of_mem e he2, hl2⟩

theorem epsSearch_mem (labelsAt : ℚ → List Int) (target : Nat) (cands : List ℚ)
    (l : List Int) (h : epsSearch labelsAt target cands = some l) :
    ∃ e ∈ cands, l = labelsAt e := by
  rcases epsSearchGo_mem labelsAt target cands _ _ _ h with hbest | hex
  · exact Option.noConfusion hbest
  · exact hex

/-- Any labelling the handler's radius search returns has one label per
input device. -/
theorem clustering_labels_length (P : LibParams) (data : List DeviceTelemetry)
    (labels : List Int)
    (h : epsSearch (fun e => dbscanLabels e 1 (scaledOf P data)) 6 EPS_RANGE =
      some labels) :
    labels.length = data.length := by
  rcases epsSearch_mem _ _ _ _ h with ⟨e, _, hl⟩
  rw [hl, dbscanLabels_length, scaledOf_length]

/-- On 2 to 99 devices (with a well-formed scaler fit) the handler
returns the normal response assembled by mkResp. -/
theorem clustering_ok_eq (P : LibParams) (data : List DeviceTelemetry)
    (h2 : 2 ≤ data.length) (h99 : data.length ≤ 99)
    (hcol : (P.colParams (data.map featuresOf)).length = 4) :
    ∃ labels,
      epsSearch (fun e => dbscanLabels e 1 (scaledOf P data)) 6 EPS_RANGE =
        some labels ∧
      clustering P data = .ok (mkResp P data labels) := by
  obtain ⟨labels, hlab⟩ :=
    clustering_search_some P data (le_trans h99 (by norm_num))
  refine ⟨labels, hlab, ?_⟩
  cases data with
  | nil => exact absurd h2 (by simp)
  | cons d rest =>
    rw [clustering, if_neg (List.cons_ne_nil d rest)]
    simp only [hlab]
    rw [if_pos, if_neg]
    · rw [realIdsOf_length, TARGET_TOTAL_POINTS]
      simp only [List.length_cons] at h99 ⊢
      omega
    · constructor
      · rw [scaledOf_length]
        exact h2
      · rw [nFeatures_scaledOf P d rest, hcol]
        norm_num

/-- Convenient form of the previous lemma for discharging isOk
hypotheses at concrete inputs. -/
theorem clustering_isOk (P : LibParams) (data : List DeviceTelemetry)
    (h2 : 2 ≤ data.length) (h99 : data.length ≤ 99)
    (hcol : (P.colParams (data.map featuresOf)).length = 4) :
    (clustering P data).isOk = true := by
  obtain ⟨labels, _, heq⟩ := clustering_ok_eq P data h2 h99 hcol
  rw [heq]
  rfl

/-- Inversion of the normal path: whenever the handler answers
normally, the response is mkResp for the labelling the radius search
selected, and the input was nonempty with fewer than 100 devices. -/
theorem clustering_ok_inv (P : LibParams) (data : List DeviceTelemetry)
    (hok : (clustering P data).isOk = true) :
    ∃ labels,
      epsSearch (fun e => dbscanLabels e 1 (scaledOf P data)) 6 EPS_RANGE =
        some labels ∧
      clustering P data = .ok (mkResp P data labels) ∧
      data ≠ [] ∧ data.length ≤ 99 := by
  rw [clustering] at hok
  split at hok
  · exact absurd hok (by simp [Resp.isOk])
  · rename_i hne
    split at hok
    · exact absurd hok (by simp [Resp.isOk])
    · rename_i labels hlab
      split at hok
      · rename_i hpca
        split at hok
        · exact absurd hok (by simp [Resp.isOk])
        · rename_i hfake
          refine ⟨labels, hlab, ?_, hne, ?_⟩
          · rw [clustering, if_neg hne]
            simp only [hlab]
            rw [if_pos hpca, if_neg hfake]
          · rw [realIdsOf_length, TARGET_TOTAL_POINTS] at hfake
            omega
      · exact absurd hok (by simp [Resp.isOk])

/-! ## The density labelling never produces noise with min_samples 1
(C10 groundwork) -/

theorem sqDist_self (a : List ℚ) : sqDist a a = 0 := by
  induction a with
  | nil => rfl
  | cons x xs ih =>
    rw [sqDist] at ih ⊢
    rw [List.zipWith_cons_cons, List.map_cons, List.sum_cons, ih, sub_self, mul_zero,
      add_zero]

theorem mem_nbrs_self (e : ℚ) (X : List (List ℚ)) (i : Nat) (h : i < X.length) :
    i ∈ nbrs e X i := by
  rw [nbrs]
  refine List.mem_filter.mpr ⟨List.mem_range.mpr h, ?_⟩
  exact decide_eq_true (by rw [sqDist_self]; exact mul_self_nonneg e)

theorem isCore_one (e : ℚ) (X : List (List ℚ)) (i : Nat) (h : i < X.length) :
    isCore e 1 X i = true := by
  rw [isCore]
  exact decide_eq_true (List.length_pos_of_mem (mem_nbrs_self e X i h))

/-- With min_samples 1 every point is a core point (it is its own
neighbour), so every label is a nonnegative cluster index - the noise
label -1 is never assigned. -/
theorem dbscanLabels_nonneg (e : ℚ) (X : List (List ℚ)) :
    ∀ l ∈ dbscanLabels e 1 X, 0 ≤ l := by
  intro l hl
  simp only [dbscanLabels] at hl
  rcases List.mem_map.mp hl with ⟨i, hi, heq⟩
  rw [isCore_one e X i (List.mem_range.mp hi)] at heq
  simp only [if_true] at heq
  rw [← heq]
  exact Int.natCast_nonneg _

/-! ## Integer labels printed as strings are never the noise string
for nonnegative labels -/

theorem digitChar_ne_dash (n : Nat) : Nat.digitChar n ≠ '-' := by
  rcases n with _|_|_|_|_|_|_|_|_|_|_|_|_|_|_|_|n <;> simp [Nat.digitChar]

theorem toDigitsCore_no_dash :
    ∀ (fuel n : Nat) (ds : List Char), '-' ∉ ds →
      '-' ∉ Nat.toDigitsCore 10 fuel n ds := by
  intro fuel
  induction fuel with
  | zero =>
    intro n ds h
    simpa [Nat.toDigitsCore] using h
  | succ fuel ih =>
    intro n ds h
    have hcons : '-' ∉ Nat.digitChar (n % 10) :: ds := by
      intro hmem
      rcases List.mem_cons.mp hmem with he | he
      · exact digitChar_ne_dash _ he.symm
      · exact h he
    simp only [Nat.toDigitsCore]
    split
    · exact hcons
    · exact ih _ _ hcons

theorem natRepr_ne_neg_one (n : Nat) : Nat.repr n ≠ "-1" := by
  intro h
  have hdata : Nat.toDigits 10 n = ['-', '1'] := by
    have := congrArg String.data h
    simpa [Nat.repr, List.asString] using this
  have : '-' ∈ Nat.toDigits 10 n := by
    rw [hdata]
    exact List.mem_cons_self _ _
  exact toDigitsCore_no_dash _ _ _ (by simp) this

/-- A nonnegative integer label never prints as the noise string. -/
theorem intToString_nonneg_ne (l : Int) (h : 0 ≤ l) : toString l ≠ "-1" := by
  cases l with
  | ofNat n =>
    intro hh
    exact natRepr_ne_neg_one n hh
  | negSucc n => exact absurd h (by simp)

/-! ## Counting devices in the response (C9, C10, C7 groundwork) -/

/-- Total number of occurrences of a device id across the member lists
of a cluster map. -/
def countIn (mp : List (String × List String)) (x : String) : Nat :=
  (mp.map (fun p => p.2.count x)).sum

/-- Total number of occurrences of a device id across the deviceUuids
lists of the response's clusters. -/
def countInClusters (cs : List ClusterOut) (x : String) : Nat :=
  (cs.map (fun c => c.deviceUuids.count x)).sum

/-- Number of non-synthetic plotData entries carrying a device id. -/
def countRealPlot (ps : List PlotPoint) (x : String) : Nat :=
  ps.countP (fun p => !p.isSynthetic && p.deviceUuid == x)

theorem addTo_countIn (mp : List (String × List String)) (cid d x : String) :
    countIn (addTo mp cid d) x = countIn mp x + (if d = x then 1 else 0) := by
  induction mp with
  | nil =>
    simp only [addTo, countIn, List.map_cons, List.map_nil, List.sum_cons,
      List.sum_nil, List.count_cons, List.count_nil]
    by_cases h : d = x
    · simp [h]
    · simp [h, (by exact fun hc => h (by exact_mod_cast beq_iff_eq.mp hc) : ¬(d == x) = true)]
  | cons q rest ih =>
    obtain ⟨c, ds⟩ := q
    by_cases hc : c = cid
    · simp only [addTo, if_pos hc, countIn, List.map_cons, List.sum_cons,
        List.count_append, List.count_cons, List.count_nil]
      by_cases h : d = x
      · simp [h]
        omega
      · have : ¬(d == x) = true := fun hb => h (beq_iff_eq.mp hb)
        simp [h, this]
    · simp only [addTo, if_neg hc, countIn, List.map_cons, List.sum_cons] at ih ⊢
      rw [ih]
      omega

theorem buildClusterMap_countIn (pairs : List (Int × String))
    (mp : List (String × List String)) (x : String) :
    countIn (buildClusterMap pairs mp) x =
      countIn mp x + (pairs.map Prod.snd).count x := by
  induction pairs generalizing mp with
  | nil => simp [buildClusterMap, countIn]
  | cons q rest ih =>
    obtain ⟨l, d⟩ := q
    rw [buildClusterMap, ih, addTo_countIn, List.map_cons, List.count_cons]
    by_cases h : d = x
    · have hb : (d == x) = true := beq_iff_eq.mpr h
      simp [h, hb]
      omega
    · have hb : ¬(d == x) = true := fun hb => h (beq_iff_eq.mp hb)
      simp [h, hb]

theorem addTo_vals (mp : List (String × List String)) (cid d0 : String) :
    ∀ pr ∈ addTo mp cid d0, ∀ d ∈ pr.2, (∃ q ∈ mp, d ∈ q.2) ∨ d = d0 := by
  induction mp with
  | nil =>
    intro pr hpr d hd
    rw [addTo] at hpr
    rcases List.mem_cons.mp hpr with h | h
    · subst h
      simp only [List.mem_singleton] at hd
      exact Or.inr hd
    · exact absurd h (List.not_mem_nil pr)
  | cons q rest ih =>
    obtain ⟨c, ds⟩ := q
    intro pr hpr d hd
    rw [addTo] at hpr
    by_cases hc : c = cid
    · rw [if_pos hc] at hpr
      rcases List.mem_cons.mp hpr with h | h
      · subst h
        rcases List.mem_append.mp hd with h2 | h2
        · exact Or.inl ⟨(c, ds), List.mem_cons_self _ _, h2⟩
        · simp only [List.mem_singleton] at h2
          exact Or.inr h2
      · exact Or.inl ⟨pr, List.mem_cons_of_mem _ h, hd⟩
    · rw [if_neg hc] at hpr
      rcases List.mem_cons.mp hpr with h | h
      · subst h
        exact Or.inl ⟨(c, ds), List.mem_cons_self _ _, hd⟩
      · rcases ih pr h d hd with ⟨q2, hq2, hdq⟩ | h2
        · exact Or.inl ⟨q2, List.mem_cons_of_mem _ hq2, hdq⟩
        · exact Or.inr h2

theorem buildClusterMap_vals (pairs : List (Int × String))
    (mp : List (String × List String)) :
    ∀ pr ∈ buildClusterMap pairs mp, ∀ d ∈ pr.2,
      (∃ q ∈ mp, d ∈ q.2) ∨ d ∈ pairs.map Prod.snd := by
  induction pairs generalizing mp with
  | nil =>
    intro pr hpr d hd
    exact Or.inl ⟨pr, hpr, hd⟩
  | cons q rest ih =>
    obtain ⟨l, d0⟩ := q
    intro pr hpr d hd
    rw [buildClusterMap] at hpr
    rcases ih _ pr hpr d hd with ⟨q2, hq2, hdq⟩ | h2
    · rcases addTo_vals mp (toString l) d0 q2 hq2 d hdq with h3 | h3
      · exact Or.inl h3
      · exact Or.inr (by rw [h3]; exact List.mem_cons_self _ _)
    · exact Or.inr (List.mem_cons_of_mem _ h2)

theorem addTo_vals_ne_nil (mp : List (String × List String)) (cid d0 : String)
    (h : ∀ q ∈ mp, q.2 ≠ []) : ∀ pr ∈ addTo mp cid d0, pr.2 ≠ [] := by
  induction mp with
  | nil =>
    intro pr hpr
    rw [addTo] at hpr
    rcases List.mem_cons.mp hpr with h2 | h2
    · subst h2; simp
    · exact absurd h2 (List.not_mem_nil pr)
  | cons q rest ih =>
    obtain ⟨c, ds⟩ := q
    intro pr hpr
    rw [addTo] at hpr
    by_cases hc : c = cid
    · rw [if_pos hc] at hpr
      rcases List.mem_cons.mp hpr with h2 | h2
      · subst h2; simp
      · exact h pr (List.mem_cons_of_mem _ h2)
    · rw [if_neg hc] at hpr
      rcases List.mem_cons.mp hpr with h2 | h2
      · subst h2
        exact h (c, ds) (List.mem_cons_self _ _)
      · exact ih (fun q hq => h q (List.mem_cons_of_mem _ hq)) pr h2

theorem buildClusterMap_vals_ne_nil (pairs : List (Int × String))
    (mp : List (String × List String)) (h : ∀ q ∈ mp, q.2 ≠ []) :
    ∀ pr ∈ buildClusterMap pairs mp, pr.2 ≠ [] := by
  induction pairs generalizing mp with
  | nil => exact h
  | cons q rest ih =>
    obtain ⟨l, d0⟩ := q
    intro pr hpr
    rw [buildClusterMap] at hpr
    exact ih _ (addTo_vals_ne_nil mp (toString l) d0 h) pr hpr

theorem addTo_keys (mp : List (String × List String)) (cid d0 : String) :
    ∀ pr ∈ addTo mp cid d0, pr.1 ∈ mp.map Prod.fst ∨ pr.1 = cid := by
  induction mp with
  | nil =>
    intro pr hpr
    rw [addTo] at hpr
    rcases List.mem_cons.mp hpr with h | h
    · subst h; exact Or.inr rfl
    · exact absurd h (List.not_mem_nil pr)
  | cons q rest ih =>
    obtain ⟨c, ds⟩ := q
    intro pr hpr
    rw [addTo] at hpr
    by_cases hc : c = cid
    · rw [if_pos hc] at hpr
      rcases List.mem_cons.mp hpr with h | h
      · subst h; exact Or.inl (List.mem_cons_self _ _)
      · exact Or.inl (List.mem_cons_of_mem _ (List.mem_map_of_mem Prod.fst h))
    · rw [if_neg hc] at hpr
      rcases List.mem_cons.mp hpr with h | h
      · subst h; exact Or.inl (List.mem_cons_self _ _)
      · rcases ih pr h with h2 | h2
        · exact Or.inl (List.mem_cons_of_mem _ h2)
        · exact Or.inr h2

theorem buildClusterMap_keys (pairs : List (Int × String))
    (mp : List (String × List String)) :
    ∀ pr ∈ buildClusterMap pairs mp, pr.1 ∈ mp.map Prod.fst ∨
      pr.1 ∈ pairs.map (fun q => toString q.1) := by
  induction pairs generalizing mp with
  | nil =>
    intro pr hpr
    exact Or.inl (List.mem_map_of_mem Prod.fst hpr)
  | cons q rest ih =>
    obtain ⟨l, d0⟩ := q
    intro pr hpr
    rw [buildClusterMap] at hpr
    rcases ih _ pr hpr with h2 | h2
    · rcases List.mem_map.mp h2 with ⟨q2, hq2, hk⟩
      rcases addTo_keys mp (toString l) d0 q2 hq2 with h3 | h3
      · rw [hk] at h3
        exact Or.inl h3
      · refine Or.inr ?_
        rw [List.map_cons]
        rw [← hk, h3]
        exact List.mem_cons_self _ _
    · exact Or.inr (List.mem_cons_of_mem _ h2)

theorem pcaTransform_length (W : List (List ℚ)) (X : List (List ℚ)) :
    (pcaTransform W X).length = X.length := by
  simp [pcaTransform]

theorem mkRealPlot_not_syn :
    ∀ (ids : List String) (labels : List Int) (coords : List (ℚ × ℚ)),
      ∀ p ∈ mkRealPlot ids labels coords, p.isSynthetic = false := by
  intro ids
  induction ids with
  | nil =>
    intro labels coords p hp
    cases labels <;> cases coords <;> exact absurd hp (List.not_mem_nil p)
  | cons d ds ih =>
    intro labels coords p hp
    cases labels with
    | nil => cases coords <;> exact absurd hp (List.not_mem_nil p)
    | cons l ls =>
      cases coords with
      | nil => exact absurd hp (List.not_mem_nil p)
      | cons xy xys =>
        rw [mkRealPlot] at hp
        rcases List.mem_cons.mp hp with h | h
        · rw [h]
        · exact ih ls xys p h

theorem mkRealPlot_clusterIds :
    ∀ (ids : List String) (labels : List Int) (coords : List (ℚ × ℚ)),
      ∀ p ∈ mkRealPlot ids labels coords, ∃ l ∈ labels, p.clusterId = toString l := by
  intro ids
  induction ids with
  | nil =>
    intro labels coords p hp
    cases labels <;> cases coords <;> exact absurd hp (List.not_mem_nil p)
  | cons d ds ih =>
    intro labels coords p hp
    cases labels with
    | nil => cases coords <;> exact absurd hp (List.not_mem_nil p)
    | cons l ls =>
      cases coords with
      | nil => exact absurd hp (List.not_mem_nil p)
      | cons xy xys =>
        rw [mkRealPlot] at hp
        rcases List.mem_cons.mp hp with h | h
        · exact ⟨l, List.mem_cons_self _ _, by rw [h]⟩
        · rcases ih ls xys p h with ⟨l2, hl2, he⟩
          exact ⟨l2, List.mem_cons_of_mem _ hl2, he⟩

theorem mkRealPlot_count :
    ∀ (ids : List String) (labels : List Int) (coords : List (ℚ × ℚ)) (x : String),
      labels.length = ids.length → coords.length = ids.length →
      countRealPlot (mkRealPlot ids labels coords) x = ids.count x := by
  intro ids
  induction ids with
  | nil =>
    intro labels coords x h1 h2
    have h3 : labels = [] := List.eq_nil_of_length_eq_zero h1
    subst h3
    have h4 : coords = [] := List.eq_nil_of_length_eq_zero h2
    subst h4
    rfl
  | cons d ds ih =>
    intro labels coords x h1 h2
    cases labels with
    | nil => exact absurd h1 (by simp)
    | cons l ls =>
      cases coords with
      | nil => exact absurd h2 (by simp)
      | cons xy xys =>
        have ih2 := ih ls xys x (by simpa using h1) (by simpa using h2)
        rw [mkRealPlot, countRealPlot, List.countP_cons, List.count_cons]
        have hcond :
            (!(⟨d, xy.1, xy.2, toString l, false⟩ : PlotPoint).isSynthetic &&
              ((⟨d, xy.1, xy.2, toString l, false⟩ : PlotPoint).deviceUuid == x)) =
            (d == x) := by
          simp
        rw [hcond, ← countRealPlot, ih2]

theorem countRealPlot_append (a b : List PlotPoint) (x : String) :
    countRealPlot (a ++ b) x = countRealPlot a x + countRealPlot b x := by
  simp [countRealPlot, List.countP_append]

theorem countRealPlot_all_syn (ps : List PlotPoint) (x : String)
    (h : ∀ p ∈ ps, p.isSynthetic = true) : countRealPlot ps x = 0 := by
  induction ps with
  | nil => rfl
  | cons p rest ih =>
    rw [countRealPlot, List.countP_cons]
    rw [h p (List.mem_cons_self _ _)]
    simp only [Bool.not_true, Bool.false_and]
    rw [← countRealPlot, ih (fun q hq => h q (List.mem_cons_of_mem _ hq))]
    simp

theorem synPointsFor_fields (P : LibParams) (W : List (List ℚ)) (centre : List ℚ)
    (cid : String) (fakeId share : Nat) :
    ∀ p ∈ synPointsFor P W centre cid fakeId share,
      p.isSynthetic = true ∧ p.clusterId = cid := by
  intro p hp
  rcases List.mem_map.mp hp with ⟨k, _, heq⟩
  rw [← heq]
  exact ⟨rfl, rfl⟩

theorem buildSyn_fields (P : LibParams) (W : List (List ℚ)) (nFake : Int)
    (total : Nat) (cmap : List (String × List String)) :
    ∀ (cents : List (String × List ℚ)) (fakeId : Nat),
      ∀ p ∈ (buildSyn P W nFake total cmap cents fakeId).1,
        p.isSynthetic = true ∧ p.clusterId ∈ cents.map Prod.fst := by
  intro cents
  induction cents with
  | nil =>
    intro fakeId p hp
    exact absurd hp (List.not_mem_nil p)
  | cons ce rest ih =>
    obtain ⟨cid, centre⟩ := ce
    intro fakeId p hp
    rw [buildSyn] at hp
    by_cases hsh :
        pyRound (((nFake * (cmapLen cmap cid : Int) : Int) : ℚ) / (total : ℚ)) = 0
    · rw [if_pos hsh] at hp
      rcases ih fakeId p hp with ⟨hsyn, hmem⟩
      exact ⟨hsyn, List.mem_cons_of_mem _ hmem⟩
    · rw [if_neg hsh] at hp
      rcases List.mem_append.mp hp with h | h
      · rcases synPointsFor_fields P W centre cid fakeId _ p h with ⟨hsyn, hcid⟩
        refine ⟨hsyn, ?_⟩
        rw [List.map_cons, hcid]
        exact List.mem_cons_self _ _
      · rcases ih _ p h with ⟨hsyn, hmem⟩
        exact ⟨hsyn, List.mem_cons_of_mem _ hmem⟩

theorem countInClusters_mkClusters (cmap : List (String × List String)) (k : Nat)
    (x : String) :
    countInClusters (mkClusters cmap k) x = countIn cmap x := by
  rw [mkClusters, countInClusters, List.map_append, List.sum_append, List.map_map,
    List.map_map]
  have h2 :
      ((List.range k).map ((fun c : ClusterOut => c.deviceUuids.count x) ∘
        (fun j => ⟨"S" ++ toString (j + 1), []⟩))).sum = 0 := by
    induction k with
    | zero => rfl
    | succ k ihk =>
      rw [List.range_succ, List.map_append, List.sum_append]
      simpa using ihk
  rw [h2, countIn]
  rfl

theorem countInClusters_pos (cs : List ClusterOut) (x : String)
    (h : 0 < countInClusters cs x) :
    ∃ c ∈ cs, x ∈ c.deviceUuids ∧ 0 < c.deviceUuids.count x := by
  induction cs with
  | nil => exact absurd h (by simp [countInClusters])
  | cons c rest ih =>
    rw [countInClusters, List.map_cons, List.sum_cons] at h
    by_cases hc : 0 < c.deviceUuids.count x
    · exact ⟨c, List.mem_cons_self _ _, List.count_pos_iff.mp hc, hc⟩
    · have : 0 < countInClusters rest x := by
        rw [countInClusters]
        omega
      rcases ih this with ⟨c2, hc2, hm, hcnt⟩
      exact ⟨c2, List.mem_cons_of_mem _ hc2, hm, hcnt⟩

/-! ## Main clustering-response theorems (C9, C10, C7) -/

/-- The clusters of a normal response (empty on error paths). -/
def okClusters : Resp ClusteringOut → List ClusterOut
  | .ok o => o.clusters
  | _ => []

/-- The plotData of a normal response (empty on error paths). -/
def okPlot : Resp ClusteringOut → List PlotPoint
  | .ok o => o.plotData
  | _ => []

/-- The total count of a device id over all member lists of a normal
response equals its count among the input ids. -/
theorem clustering_cluster_count (P : LibParams) (data : List DeviceTelemetry)
    (labels : List Int)
    (hlab : epsSearch (fun e => dbscanLabels e 1 (scaledOf P data)) 6 EPS_RANGE =
      some labels) (x : String) :
    countInClusters (okClusters (.ok (mkResp P data labels))) x =
      (realIdsOf data).count x := by
  have hlen : labels.length = data.length :=
    clustering_labels_length P data labels hlab
  simp only [okClusters, mkResp]
  rw [countInClusters_mkClusters, buildClusterMap_countIn]
  have hz : (labels.zip (realIdsOf data)).map Prod.snd = realIdsOf data := by
    apply List.map_snd_zip
    rw [hlen, realIdsOf_length]
  rw [hz]
  simp [countIn]

/-- C9: on a valid input with distinct device ids, whenever the
clustering handler returns a normal response, every input device id
occurs exactly once across all cluster member lists and exactly once
among the non-synthetic plotData entries. -/
theorem C9_each_device_once (P : LibParams) (data : List DeviceTelemetry)
    (hnd : (realIdsOf data).Nodup)
    (hok : (clustering P data).isOk = true)
    (x : String) (hx : x ∈ realIdsOf data) :
    countInClusters (okClusters (clustering P data)) x = 1 ∧
    countRealPlot (okPlot (clustering P data)) x = 1 := by
  obtain ⟨labels, hlab, heq, hne, h99⟩ := clustering_ok_inv P data hok
  have hlen : labels.length = data.length :=
    clustering_labels_length P data labels hlab
  rw [heq]
  constructor
  · rw [clustering_cluster_count P data labels hlab x]
    exact List.count_eq_one_of_mem hnd hx
  · simp only [okPlot, mkResp]
    rw [countRealPlot_append]
    rw [countRealPlot_all_syn _ x
      (fun p hp => (buildSyn_fields _ _ _ _ _ _ _ p hp).1)]
    rw [mkRealPlot_count (realIdsOf data) labels _ x
      (by rw [hlen, realIdsOf_length])
      (by rw [pcaTransform_length, scaledOf_length, realIdsOf_length])]
    rw [List.count_eq_one_of_mem hnd hx]

/-- C10: with min_samples 1 the density scan never assigns the noise
label (every label is a nonnegative cluster index), and in every normal
response every input device id is covered by a cluster whose id is not
the noise string. -/
theorem C10_no_noise_label (eps : ℚ) (X : List (List ℚ)) (l : Int)
    (hl : l ∈ dbscanLabels eps 1 X)
    (P : LibParams) (data : List DeviceTelemetry)
    (hok : (clustering P data).isOk = true)
    (x : String) (hx : x ∈ realIdsOf data) :
    0 ≤ l ∧
    ∃ c ∈ okClusters (clustering P data),
      x ∈ c.deviceUuids ∧ c.clusterId ≠ "-1" := by
  refine ⟨dbscanLabels_nonneg eps X l hl, ?_⟩
  obtain ⟨labels, hlab, heq, hne, h99⟩ := clustering_ok_inv P data hok
  rw [heq]
  have hpos : 0 < countInClusters (okClusters (.ok (mkResp P data labels))) x := by
    rw [clustering_cluster_count P data labels hlab x]
    exact List.count_pos_iff.mpr hx
  rcases countInClusters_pos _ _ hpos with ⟨c, hc, hmem, hcpos⟩
  refine ⟨c, hc, hmem, ?_⟩
  simp only [okClusters, mkResp, mkClusters] at hc
  rcases List.mem_append.mp hc with hc1 | hc1
  · rcases List.mem_map.mp hc1 with ⟨pr, hpr, hcpr⟩
    rcases buildClusterMap_keys _ _ pr hpr with hk | hk
    · exact absurd hk (by simp)
    · rcases List.mem_map.mp hk with ⟨q, hq, hkq⟩
      obtain ⟨q1, q2⟩ := q
      have hql : q1 ∈ labels := (List.of_mem_zip hq).1
      have hlnn : 0 ≤ q1 := by
        rcases epsSearch_mem _ _ _ _ hlab with ⟨e2, _, hldef⟩
        rw [hldef] at hql
        exact dbscanLabels_nonneg e2 _ q1 hql
      rw [← hcpr, ← hkq]
      exact intToString_nonneg_ne q1 hlnn
  · exfalso
    rcases List.mem_map.mp hc1 with ⟨k, _, hck⟩
    rw [← hck] at hmem
    exact absurd hmem (List.not_mem_nil x)

/-- C7 (amended): in every normal response, every synthetic plot point
carries the clusterId of a REAL cluster of the response - one with
nonempty membership - not of an empty placeholder; and every id in any
cluster's member list is an input device id, so the synthetic points
(which are only ever added to plotData) are structurally excluded from
the cluster membership consumed by scheduling. -/
theorem C7_amended_synthetic_tagging (P : LibParams) (data : List DeviceTelemetry)
    (hok : (clustering P data).isOk = true)
    (p : PlotPoint) (hp : p ∈ okPlot (clustering P data))
    (hsyn : p.isSynthetic = true)
    (c : ClusterOut) (hc : c ∈ okClusters (clustering P data))
    (d : String) (hd : d ∈ c.deviceUuids) :
    (∃ c2 ∈ okClusters (clustering P data),
      c2.clusterId = p.clusterId ∧ c2.deviceUuids ≠ []) ∧
    d ∈ realIdsOf data := by
  obtain ⟨labels, hlab, heq, hne, h99⟩ := clustering_ok_inv P data hok
  rw [heq] at hp hc ⊢
  constructor
  · simp only [okPlot, mkResp] at hp
    rcases List.mem_append.mp hp with hp1 | hp1
    · exact absurd hsyn (by rw [mkRealPlot_not_syn _ _ _ p hp1]; simp)
    · have hcid := (buildSyn_fields _ _ _ _ _ _ _ p hp1).2
      rw [realCentroids] at hcid
      rw [List.map_map] at hcid
      rcases List.mem_map.mp hcid with ⟨pr, hpr, hkey⟩
      have hpr2 := List.mem_of_mem_filter hpr
      refine ⟨⟨pr.1, pr.2⟩, ?_, ?_, ?_⟩
      · simp only [okClusters, mkResp, mkClusters]
        apply List.mem_append_left
        exact List.mem_map_of_mem _ hpr2
      · rw [← hkey]
        rfl
      · simpa using buildClusterMap_vals_ne_nil _ _ (by simp) pr hpr2
  · simp only [okClusters, mkResp, mkClusters] at hc
    rcases List.mem_append.mp hc with hc1 | hc1
    · rcases List.mem_map.mp hc1 with ⟨pr, hpr, hcpr⟩
      have hd2 : d ∈ pr.2 := by
        rw [← hcpr] at hd
        exact hd
      rcases buildClusterMap_vals _ _ pr hpr d hd2 with ⟨q, hq, _⟩ | hin
      · exact absurd hq (List.not_mem_nil q)
      · have hz : (labels.zip (realIdsOf data)).map Prod.snd = realIdsOf data := by
          apply List.map_snd_zip
          rw [clustering_labels_length P data labels hlab, realIdsOf_length]
        rw [hz] at hin
        exact hin
    · exfalso
      rcases List.mem_map.mp hc1 with ⟨k, _, hck⟩
      rw [← hck] at hd
      exact absurd hd (List.not_mem_nil d)

/-! ## Concrete two-device run (witness inputs) -/

/-- Two identical feature rows always end up in one cluster labelled 0,
whatever the radius: every pairwise squared distance is 0. -/
theorem dbscan_pair_same (e : ℚ) (r : List ℚ) : dbscanLabels e 1 [r, r] = [0, 0] := by
  have hget : ∀ i : Nat, ([r, r] : List (List ℚ)).getD i [] = r ∨
      ([r, r] : List (List ℚ)).getD i [] = [] := by
    intro i
    match i with
    | 0 => exact Or.inl rfl
    | 1 => exact Or.inl rfl
    | (n + 2) => exact Or.inr rfl
  have hsq0 : ∀ a b : List ℚ, (a = r ∨ a = []) → (b = r ∨ b = []) → sqDist a b = 0 := by
    intro a b ha hb
    rcases ha with ha | ha <;> rcases hb with hb | hb <;> rw [ha, hb]
    · exact sqDist_self r
    · simp [sqDist]
    · simp [sqDist]
    · exact sqDist_self []
  have hcond : ∀ i j : Nat,
      (decide (sqDist (([r, r] : List (List ℚ)).getD i [])
        (([r, r] : List (List ℚ)).getD j []) ≤ e * e)) = true := fun i j =>
    decide_eq_true (by rw [hsq0 _ _ (hget i) (hget j)]; exact mul_self_nonneg e)
  have hnb : ∀ i : Nat, nbrs e [r, r] i = [0, 1] := by
    intro i
    rw [nbrs, show ([r, r] : List (List ℚ)).length = 2 from rfl,
      show List.range 2 = [0, 1] from rfl]
    rw [List.filter_cons, List.filter_cons, List.filter_nil]
    rw [hcond i 0, hcond i 1]
    simp
  have hcore : ∀ i : Nat, isCore e 1 [r, r] i = true := by
    intro i
    rw [isCore, hnb i]
    rfl
  have hstep1 : repStep e 1 [r, r] [0, 1] = [0, 0] := by
    rw [repStep, show ([r, r] : List (List ℚ)).length = 2 from rfl,
      show List.range 2 = [0, 1] from rfl]
    simp only [hnb, hcore, if_true]
    decide
  have hstep2 : repStep e 1 [r, r] [0, 0] = [0, 0] := by
    rw [repStep, show ([r, r] : List (List ℚ)).length = 2 from rfl,
      show List.range 2 = [0, 1] from rfl]
    simp only [hnb, hcore, if_true]
    decide
  have hreps : reps e 1 [r, r] = [0, 0] := by
    rw [reps, show ([r, r] : List (List ℚ)).length = 2 from rfl,
      show List.range 2 = [0, 1] from rfl]
    rw [show ∀ (f : List Nat → List Nat) (x : List Nat), f^[2] x = f (f x) from
      fun f x => rfl]
    rw [hstep1, hstep2]
  simp only [dbscanLabels, hreps, hcore,
    show ([r, r] : List (List ℚ)).length = 2 from rfl,
    show List.range 2 = [0, 1] from rfl, hnb, if_true]
  decide

/-- The concrete two-device input used by witnesses: two devices with
identical (zero) telemetry. -/
def twoDevs : List DeviceTelemetry := [⟨"a", 0, 0, 0, 0⟩, ⟨"b", 0, 0, 0, 0⟩]

theorem twoDevs_labels (labels : List Int)
    (h : epsSearch (fun e2 => dbscanLabels e2 1 (scaledOf testParams twoDevs)) 6
      EPS_RANGE = some labels) : labels = [0, 0] := by
  rcases epsSearch_mem _ _ _ _ h with ⟨e, _, hl⟩
  rw [hl]
  rw [show scaledOf testParams twoDevs =
    [applyScalerRow (testParams.colParams (twoDevs.map featuresOf)) [0, 0, 0, 0],
     applyScalerRow (testParams.colParams (twoDevs.map featuresOf)) [0, 0, 0, 0]]
    from rfl]
  exact dbscan_pair_same e _

/-- The two-device run returns the normal response for the labelling
0, 0. -/
theorem twoDevs_eval :
    clustering testParams twoDevs = .ok (mkResp testParams twoDevs [0, 0]) := by
  obtain ⟨labels, hlab, heq⟩ :=
    clustering_ok_eq testParams twoDevs (by decide) (by decide) rfl
  rw [heq, twoDevs_labels labels hlab]

theorem share_98 :
    pyRound ((((98 : Int) * ((2 : Nat) : Int) : Int) : ℚ) / (((2 : Nat)) : ℚ)) = 98 := by
  have h1 : ((((98 : Int) * ((2 : Nat) : Int) : Int) : ℚ) / (((2 : Nat)) : ℚ)) =
      ((98 : Int) : ℚ) := by
    push_cast
    norm_num
  simp only [pyRound, h1, Int.floor_intCast]
  rw [if_neg]
  · rw [round_intCast]
  · push_cast
    norm_num

/-- The real cluster of the two-device run, as it appears in the
response's clusters array. -/
theorem twoDevs_cluster0 :
    (⟨"0", ["a", "b"]⟩ : ClusterOut) ∈ okClusters (clustering testParams twoDevs) := by
  rw [twoDevs_eval]
  simp only [okClusters, mkResp]
  rw [show buildClusterMap ((([0, 0] : List Int)).zip (realIdsOf twoDevs)) [] =
    [("0", ["a", "b"])] from rfl]
  rw [mkClusters]
  apply List.mem_append_left
  exact List.mem_cons_self _ _

/-- The centroid the two-device run samples its synthetic points
around. -/
def twoCentre : List ℚ :=
  centroidOf (scaledOf testParams twoDevs) (realIdsOf twoDevs) ["a", "b"]

/-- The first synthetic plot point of the two-device run. -/
def twoSynHead : PlotPoint :=
  ⟨synName 0,
   (matVec2 (testParams.pcaComp (scaledOf testParams twoDevs))
     (vecAdd twoCentre (testParams.noiseRow 0))).1,
   (matVec2 (testParams.pcaComp (scaledOf testParams twoDevs))
     (vecAdd twoCentre (testParams.noiseRow 0))).2,
   "0", true⟩

/-- The first synthetic point is in the two-device response's plot
data. -/
theorem twoDevs_synHead_mem :
    twoSynHead ∈ okPlot (clustering testParams twoDevs) := by
  rw [twoDevs_eval]
  simp only [okPlot, mkResp]
  apply List.mem_append_right
  rw [show buildClusterMap ((([0, 0] : List Int)).zip (realIdsOf twoDevs)) [] =
    [("0", ["a", "b"])] from rfl]
  rw [show realCentroids (scaledOf testParams twoDevs) (realIdsOf twoDevs)
    [("0", ["a", "b"])] = [("0", twoCentre)] from rfl]
  rw [show max 0 (TARGET_TOTAL_POINTS - ((realIdsOf twoDevs).length : Int)) =
    (98 : Int) from rfl]
  rw [show totalReal [("0", ["a", "b"])] = 2 from rfl]
  rw [buildSyn]
  rw [show cmapLen [("0", ["a", "b"])] "0" = 2 from rfl]
  rw [share_98]
  rw [if_neg (by decide : ¬(98 : Int) = 0)]
  apply List.mem_append_left
  rw [show ((98 : Int)).toNat = 98 from rfl]
  exact List.mem_map_of_mem _ (List.mem_range.mpr (show 0 < 98 by norm_num))

/-- C7 counterexample to the claim as frozen: in the concrete
two-device run, the first synthetic plot point carries clusterId "0" -
the id of the REAL cluster holding devices a and b (nonempty
membership) - not the id of an empty-membership placeholder cluster. -/
theorem C7_cex_synthetic_carries_real_cluster_id :
    twoSynHead ∈ okPlot (clustering testParams twoDevs) ∧
    twoSynHead.isSynthetic = true ∧
    ∃ c ∈ okClusters (clustering testParams twoDevs),
      c.clusterId = twoSynHead.clusterId ∧ c.deviceUuids ≠ [] :=
  ⟨twoDevs_synHead_mem, rfl,
    ⟨⟨"0", ["a", "b"]⟩, twoDevs_cluster0, rfl, by decide⟩⟩

/-- C7 witness: the amended theorem applied to the two-device run's
first synthetic point, its real cluster and device a. -/
theorem C7_amended_synthetic_tagging_witness :
    (∃ c2 ∈ okClusters (clustering testParams twoDevs),
      c2.clusterId = twoSynHead.clusterId ∧ c2.deviceUuids ≠ []) ∧
    "a" ∈ realIdsOf twoDevs :=
  C7_amended_synthetic_tagging testParams twoDevs
    (clustering_isOk testParams twoDevs (by decide) (by decide) rfl)
    twoSynHead twoDevs_synHead_mem rfl
    ⟨"0", ["a", "b"]⟩ twoDevs_cluster0 "a" (by decide)

/-- C9 witness: on the concrete two-device run, device a occurs exactly
once in the clusters and exactly once among the real plot entries. -/
theorem C9_each_device_once_witness :
    countInClusters (okClusters (clustering testParams twoDevs)) "a" = 1 ∧
    countRealPlot (okPlot (clustering testParams twoDevs)) "a" = 1 :=
  C9_each_device_once testParams twoDevs (by decide)
    (clustering_isOk testParams twoDevs (by decide) (by decide) rfl) "a" (by decide)

/-- C10 witness: the label 0 of a concrete two-point density scan is
nonnegative, and device a of the two-device run is covered by a
non-noise cluster. -/
theorem C10_no_noise_label_witness :
    0 ≤ (0 : Int) ∧
    ∃ c ∈ okClusters (clustering testParams twoDevs),
      "a" ∈ c.deviceUuids ∧ c.clusterId ≠ "-1" :=
  C10_no_noise_label 1 [[], []] 0 (by rw [dbscan_pair_same]; decide)
    testParams twoDevs
    (clustering_isOk testParams twoDevs (by decide) (by decide) rfl)
    "a" (by decide)

/-- C6 witness: the radius search over the actual candidate list and a
concrete labelling function picks a first-argmin candidate. -/
theorem C6_radius_search_first_argmin_witness :
    ∃ i, i < EPS_RANGE.length ∧
      epsSearch (fun e => dbscanLabels e 1 (scaledOf testParams twoDevs)) 6
        EPS_RANGE =
        some (dbscanLabels (EPS_RANGE.getD i 0) 1 (scaledOf testParams twoDevs)) ∧
      (∀ j, j < i →
        searchDiff (fun e => dbscanLabels e 1 (scaledOf testParams twoDevs)) 6
          (EPS_RANGE.getD i 0) <
        searchDiff (fun e => dbscanLabels e 1 (scaledOf testParams twoDevs)) 6
          (EPS_RANGE.getD j 0)) ∧
      (∀ j, j < EPS_RANGE.length →
        searchDiff (fun e => dbscanLabels e 1 (scaledOf testParams twoDevs)) 6
          (EPS_RANGE.getD i 0) ≤
        searchDiff (fun e => dbscanLabels e 1 (scaledOf testParams twoDevs)) 6
          (EPS_RANGE.getD j 0)) ∧
      (∀ j, j < EPS_RANGE.length →
        clusterCount (dbscanLabels (EPS_RANGE.getD j 0) 1
          (scaledOf testParams twoDevs)) = 6 →
        clusterCount (dbscanLabels (EPS_RANGE.getD i 0) 1
          (scaledOf testParams twoDevs)) = 6 ∧ i ≤ j) :=
  C6_radius_search_first_argmin
    (fun e => dbscanLabels e 1 (scaledOf testParams twoDevs)) 6 EPS_RANGE
    EPS_RANGE_ne_nil
    (fun e _ => searchDiff_dbscan_lt (scaledOf testParams twoDevs)
      (by rw [scaledOf_length]; decide) e)

end UpFlux
